import Mathlib

/-!
# go-cpe-dictionary: package `db` (db.go)

A shallow embedding of `chunkSlice`, `newDB` and `NewDB` from `db/db.go`,
followed by the properties established about them.

Conventions of the embedding.

* Go `int` is the 64-bit two's-complement integer: a value is an `Int` in
  `[minInt, maxInt]` and every addition is followed by `wrap`.
* A Go `error` is `Option Err`; `none` is the `nil` error.
* A value of the interface type `DB` is `Option Driver`; `none` is the `nil`
  interface.
* The goroutine of `chunkSlice` is modelled by the sequence of values it sends
  on the channel, together with a flag telling whether `close(ch)` was reached.
-/

set_option autoImplicit false

namespace db

/-! ## Machine integers -/

/-- Largest value of a Go `int` on a 64-bit platform. -/
def maxInt : Int := 2 ^ 63 - 1

/-- Smallest value of a Go `int` on a 64-bit platform. -/
def minInt : Int := -(2 ^ 63)

/-- Two's-complement reduction of a mathematical integer to a Go `int`. -/
def wrap (x : Int) : Int := (x + 2 ^ 63) % 2 ^ 64 - 2 ^ 63

/-- Go `int` addition. -/
def addInt (a b : Int) : Int := wrap (a + b)

/-! ## `IndexChunk` and `chunkSlice` -/

/-- IndexChunk has a starting point and an ending point for Chunk. -/
structure IndexChunk where
  From : Int
  To : Int
deriving DecidableEq, Repr

/-- The body of one iteration of the `for` loop of `chunkSlice`: the chunk that
is sent on the channel when the loop variable is `i`.

    idx := IndexChunk{i, i + chunkSize}
    if length < idx.To { idx.To = length }
    ch <- idx
-/
def chunkAt (length chunkSize i : Int) : IndexChunk :=
  let idx : IndexChunk := { From := i, To := addInt i chunkSize }
  if length < idx.To then { idx with To := length } else idx

/-- The producer loop `for i := ...; i < length; i += chunkSize` started with
loop variable `i` and allowed at most `fuel` evaluations of the loop
condition.  The result is the list of chunks sent on the channel, in order,
and `true` when the loop was left (so that the deferred `close(ch)` ran),
`false` when the fuel ran out while the loop was still running. -/
def producer (length chunkSize : Int) : Nat → Int → List IndexChunk × Bool
  | 0, _ => ([], false)
  | fuel + 1, i =>
    if i < length then
      let r := producer length chunkSize fuel (addInt i chunkSize)
      (chunkAt length chunkSize i :: r.1, r.2)
    else
      ([], true)

/-- Modelled `chunkSlice(length, chunkSize)`: the producer loop started at
`i := 0`. -/
def chunkSlice (fuel : Nat) (length chunkSize : Int) : List IndexChunk × Bool :=
  producer length chunkSize fuel 0

/-- Number of iterations of the loop when no addition wraps: the least `n`
with `length ≤ n * chunkSize`, computed as `(length + chunkSize - 1) / chunkSize`. -/
def numChunks (length chunkSize : Int) : Nat :=
  ((length + chunkSize - 1) / chunkSize).toNat

/-- The chunks of size `chunkSize` over unbounded integers: `n` consecutive
ranges starting at `i`, each truncated to end at `length`. -/
def idealFrom (length chunkSize : Int) : Nat → Int → List IndexChunk
  | 0, _ => []
  | n + 1, i =>
    { From := i, To := min (i + chunkSize) length } ::
      idealFrom length chunkSize n (i + chunkSize)

/-! ## Errors, drivers and the interface `DB` -/

/-- An `error` value that is not `nil`. -/
inductive Err where
  /-- An error value created inside a driver method. -/
  | fromDriver (id : Nat)
  /-- The result of `fmt.Errorf` (without `%w`) or `xerrors.New`: a message. -/
  | message (msg : String)
  /-- The result of `xerrors.Errorf(msg + "%w", inner)`: a message in front of
  the wrapped error. -/
  | wrapping (msg : String) (inner : Err)
deriving DecidableEq, Repr

/-- The Go interface type `error`; `none` is `nil`. -/
abbrev error := Option Err

/-- Modelled from the spec: the constant `dialectSqlite3` is declared outside
db.go; it is the identifier of the embedded-file relational dialect. -/
def dialectSqlite3 : String := "sqlite3"

/-- Modelled from the spec: the constant `dialectMysql` is declared outside
db.go; it is the identifier of a client/server relational dialect. -/
def dialectMysql : String := "mysql"

/-- Modelled from the spec: the constant `dialectPostgreSQL` is declared outside
db.go; it is the identifier of a client/server relational dialect. -/
def dialectPostgreSQL : String := "postgres"

/-- Modelled from the spec: the constant `dialectRedis` is declared outside
db.go; it is the identifier of the key-value dialect. -/
def dialectRedis : String := "redis"

/-- The two driver types that `newDB` constructs, `&RDBDriver{name: ...}` and
`&RedisDriver{name: ...}`.  Only the field `name` is set by db.go; whatever
else a driver holds lives in the backend state. -/
inductive Driver where
  | RDBDriver (name : String)
  | RedisDriver (name : String)
deriving DecidableEq, Repr

/-- The field `name` of a driver. -/
def Driver.name : Driver → String
  | .RDBDriver n => n
  | .RedisDriver n => n

/-- A value of the interface type `DB`; `none` is the `nil` interface. -/
abbrev DB := Option Driver

/-- The methods of the interface `DB`. -/
inductive Call where
  | Name
  | OpenDB
  | CloseDB
  | MigrateDB
  | IsGoCPEDictModelV1
  | GetFetchMeta
  | UpsertFetchMeta
  | GetVendorProducts
  | GetCpesByVendorProduct
  | InsertCpes
  | IsDeprecated
deriving DecidableEq, Repr

/-- The struct `Option` of db.go (named `OpenOption` here, `Option` being taken
in Lean); `RedisTimeout` is a `time.Duration`, a number of nanoseconds. -/
structure OpenOption where
  RedisTimeout : Int
deriving DecidableEq, Repr

/-- The behaviour of the driver methods that `NewDB` calls.  Their bodies are
not part of db.go, so they are a parameter: each method maps the receiver, its
arguments and the backend state `σ` (connection, files, the fields of the
driver) to its results and the next state. -/
structure Backend (σ : Type) where
  OpenDB : Driver → String → String → Bool → OpenOption → σ → (Bool × error) × σ
  IsGoCPEDictModelV1 : Driver → σ → (Bool × error) × σ
  MigrateDB : Driver → σ → error × σ

/-- The backend state together with the record of the driver methods invoked
so far, oldest first. -/
structure World (σ : Type) where
  state : σ
  calls : List Call

/-- The method call `driver.OpenDB(dbType, dbPath, debugSQL, option)`. -/
def invokeOpenDB {σ : Type} (b : Backend σ) (d : Driver) (dbType dbPath : String)
    (debugSQL : Bool) (option : OpenOption) (w : World σ) : (Bool × error) × World σ :=
  let r := b.OpenDB d dbType dbPath debugSQL option w.state
  (r.1, { state := r.2, calls := w.calls ++ [Call.OpenDB] })

/-- The method call `driver.IsGoCPEDictModelV1()`. -/
def invokeIsGoCPEDictModelV1 {σ : Type} (b : Backend σ) (d : Driver) (w : World σ) :
    (Bool × error) × World σ :=
  let r := b.IsGoCPEDictModelV1 d w.state
  (r.1, { state := r.2, calls := w.calls ++ [Call.IsGoCPEDictModelV1] })

/-- The method call `driver.MigrateDB()`. -/
def invokeMigrateDB {σ : Type} (b : Backend σ) (d : Driver) (w : World σ) :
    error × World σ :=
  let r := b.MigrateDB d w.state
  (r.1, { state := r.2, calls := w.calls ++ [Call.MigrateDB] })

/-! ## `newDB` and `NewDB` -/

/-- The function `newDB` of db.go: the `switch` on the dialect. -/
def newDB (dbType : String) : DB × error :=
  if dbType = dialectSqlite3 ∨ dbType = dialectMysql ∨ dbType = dialectPostgreSQL then
    (some (Driver.RDBDriver dbType), none)
  else if dbType = dialectRedis then
    (some (Driver.RedisDriver dbType), none)
  else
    (none, some (Err.message ("Invalid database dialect, " ++ dbType)))

/-- What a call of `NewDB` returns, `(driver, locked, err)`, and the world it
leaves behind. -/
structure NewDBResult (σ : Type) where
  driver : DB
  locked : Bool
  err : error
  world : World σ

/-- The function `NewDB` of db.go.  The result is `none` when the call does not
return because a method is called on a `nil` interface (a run-time panic). -/
def NewDB {σ : Type} (b : Backend σ) (dbType dbPath : String) (debugSQL : Bool)
    (option : OpenOption) (w : World σ) : Option (NewDBResult σ) :=
  match newDB dbType with
  | (driver, some err) =>
    some ⟨driver, false, some (Err.wrapping "Failed to new db. err: " err), w⟩
  | (none, none) => none
  | (some d, none) =>
    match invokeOpenDB b d dbType dbPath debugSQL option w with
    | ((locked, some err), w1) =>
      if locked then some ⟨none, true, some err, w1⟩ else some ⟨none, false, some err, w1⟩
    | ((_, none), w1) =>
      match invokeIsGoCPEDictModelV1 b d w1 with
      | ((_, some err), w2) =>
        some ⟨none, false, some (Err.wrapping "Failed to IsGoCPEDictModelV1. err: " err), w2⟩
      | ((isV1, none), w2) =>
        if isV1 then
          some ⟨none, false, some (Err.message
            "Failed to NewDB. Since SchemaVersion is incompatible, delete Database and fetch again."), w2⟩
        else
          match invokeMigrateDB b d w2 with
          | (some err, w3) =>
            some ⟨some d, false, some (Err.wrapping "Failed to migrate db. err: " err), w3⟩
          | (none, w3) => some ⟨some d, false, none, w3⟩

/-- The dialects that `newDB` accepts. -/
def supported (dbType : String) : Prop :=
  dbType = dialectSqlite3 ∨ dbType = dialectMysql ∨ dbType = dialectPostgreSQL ∨
    dbType = dialectRedis

instance (dbType : String) : Decidable (supported dbType) := by
  unfold supported; infer_instance

/-- A concrete backend without state whose three methods return fixed results:
`o` from `OpenDB`, `v` from `IsGoCPEDictModelV1` and `m` from `MigrateDB`. -/
def scripted (o v : Bool × error) (m : error) : Backend Unit where
  OpenDB := fun _ _ _ _ _ s => (o, s)
  IsGoCPEDictModelV1 := fun _ s => (v, s)
  MigrateDB := fun _ s => (m, s)

/-! ## The loop over unbounded integers, and error messages -/

/-- The body of one iteration of the loop of `chunkSlice` computed with
unbounded integers: `chunkAt` with `+` in place of the wrapping addition. -/
def chunkAtZ (length chunkSize i : Int) : IndexChunk :=
  let idx : IndexChunk := { From := i, To := i + chunkSize }
  if length < idx.To then { idx with To := length } else idx

/-- The producer loop computed with unbounded integers: `producer` with `+` in
place of the wrapping addition. -/
def producerZ (length chunkSize : Int) : Nat → Int → List IndexChunk × Bool
  | 0, _ => ([], false)
  | fuel + 1, i =>
    if i < length then
      let r := producerZ length chunkSize fuel (i + chunkSize)
      (chunkAtZ length chunkSize i :: r.1, r.2)
    else
      ([], true)

/-- The function `chunkSlice` computed with unbounded integers. -/
def chunkSliceZ (fuel : Nat) (length chunkSize : Int) : List IndexChunk × Bool :=
  producerZ length chunkSize fuel 0

/-- The method `Error()` of an error value: the text of `xerrors.New(msg)` and
of `fmt.Errorf` is the message, the text of `xerrors.Errorf(msg + "%w", inner)`
is the message followed by the text of the wrapped error.  The texts of the
errors created inside a driver are the parameter `driverText`. -/
def Err.Error (driverText : Nat → String) : Err → String
  | .fromDriver id => driverText id
  | .message msg => msg
  | .wrapping msg inner => msg ++ Err.Error driverText inner

end db

/-! ## Package `commands` (fetch.go) -/

namespace commands

/-- The typed default value of a command-line flag. -/
inductive FlagValue where
  | bool (b : Bool)
  | int (n : Int)
deriving DecidableEq, Repr

/-- A flag of a flag set: its name, its default value and its usage text. -/
structure Flag where
  Name : String
  DefValue : FlagValue
  Usage : String
deriving DecidableEq, Repr

/-- The set of persistent flags of a command, in the order of definition. -/
abbrev FlagSet := List Flag

/-- The library call `flags.Bool(name, value, usage)`: defines a bool flag. -/
def defineBool (fs : FlagSet) (name : String) (value : Bool) (usage : String) : FlagSet :=
  fs ++ [{ Name := name, DefValue := FlagValue.bool value, Usage := usage }]

/-- The library call `flags.Int(name, value, usage)`: defines an int flag. -/
def defineInt (fs : FlagSet) (name : String) (value : Int) (usage : String) : FlagSet :=
  fs ++ [{ Name := name, DefValue := FlagValue.int value, Usage := usage }]

/-- The library call `flags.Lookup(name)`: the flag of that name, if defined. -/
def lookup (fs : FlagSet) (name : String) : Option Flag :=
  fs.find? (fun f => f.Name == name)

/-- The persistent flags of `fetchCmd` and the keys bound to them in viper. -/
structure FetchCmd where
  flags : FlagSet
  bound : List (String × Flag)

/-- The library call `viper.BindPFlag(key, flag)`; with a nil flag it returns
an error, which fetch.go discards, and binds nothing. -/
def bindPFlag (c : FetchCmd) (key : String) (flag : Option Flag) : FetchCmd :=
  match flag with
  | some f => { c with bound := c.bound ++ [(key, f)] }
  | none => c

/-- The value `fetchCmd` before `init` runs: a command without flags. -/
def fetchCmd : FetchCmd := { flags := [], bound := [] }

/-- The function `init` of fetch.go, where `numCPU` is the result of
`runtime.NumCPU()`. -/
def init (numCPU : Int) (c : FetchCmd) : FetchCmd :=
  let c : FetchCmd :=
    ⟨defineBool c.flags "stdout" false "display all CPEs to stdout", c.bound⟩
  let c := bindPFlag c "stdout" (lookup c.flags "stdout")
  let c : FetchCmd :=
    ⟨defineInt c.flags "wait" 0 "Interval between fetch (seconds)", c.bound⟩
  let c := bindPFlag c "wait" (lookup c.flags "wait")
  let c : FetchCmd :=
    ⟨defineInt c.flags "threads" numCPU "The number of threads to be used", c.bound⟩
  let c := bindPFlag c "threads" (lookup c.flags "threads")
  let c : FetchCmd :=
    ⟨defineInt c.flags "batch-size" 100 "The number of batch size to insert.", c.bound⟩
  bindPFlag c "batch-size" (lookup c.flags "batch-size")

end commands

namespace db

/-! ## Lemmas on machine integers -/

theorem wrap_eq_self (x : Int) (h1 : minInt ≤ x) (h2 : x ≤ maxInt) : wrap x = x := by
  unfold wrap
  unfold minInt at h1
  unfold maxInt at h2
  omega

theorem addInt_eq_add (a b : Int) (h1 : minInt ≤ a + b) (h2 : a + b ≤ maxInt) :
    addInt a b = a + b :=
  wrap_eq_self (a + b) h1 h2

/-! ## The producer loop without wrap-around -/

theorem chunkAt_eq_min (N cs i : Int) (h1 : minInt ≤ i + cs) (h2 : i + cs ≤ maxInt) :
    chunkAt N cs i = { From := i, To := min (i + cs) N } := by
  unfold chunkAt
  simp only [addInt_eq_add i cs h1 h2]
  by_cases h : N < i + cs
  · simp [h, min_eq_right (le_of_lt h)]
  · simp [h, min_eq_left (not_lt.mp h)]

theorem producer_run (N cs : Int) (hcs : 1 ≤ cs) :
    ∀ (n : Nat) (i : Int) (fuel : Nat), 0 ≤ i → i + n * cs ≤ maxInt →
      N ≤ i + n * cs → (0 < n → i + n * cs - cs < N) → n < fuel →
      producer N cs fuel i = (idealFrom N cs n i, true) := by
  intro n
  induction n with
  | zero =>
    intro i fuel _ _ hN _ hf
    obtain ⟨f, rfl⟩ := Nat.exists_eq_succ_of_ne_zero (Nat.pos_iff_ne_zero.mp hf)
    have hlt : ¬ i < N := by
      simp only [Nat.cast_zero, zero_mul, add_zero] at hN
      omega
    simp [producer, idealFrom, hlt]
  | succ n ih =>
    intro i fuel hi hmax hN hlow hf
    obtain ⟨f, rfl⟩ := Nat.exists_eq_succ_of_ne_zero (Nat.pos_iff_ne_zero.mp (Nat.lt_of_le_of_lt (Nat.zero_le _) hf))
    have hcast : ((n + 1 : Nat) : Int) * cs = (n : Int) * cs + cs := by push_cast; ring
    rw [hcast] at hmax hN hlow
    have hm : 0 ≤ (n : Int) * cs := mul_nonneg (Int.ofNat_nonneg n) (by omega)
    generalize (n : Int) * cs = m at hmax hN hlow hm ih
    have hlow2 := hlow (Nat.succ_pos n)
    have hiN : i < N := by omega
    have hmin : minInt ≤ i + cs := by unfold minInt; omega
    have hmx : i + cs ≤ maxInt := by omega
    have hrec := ih (i + cs) f (by omega) (by omega) (by omega) (fun _ => by omega) (by omega)
    simp only [producer, hiN, if_true, idealFrom, chunkAt_eq_min N cs i hmin hmx,
      addInt_eq_add i cs hmin hmx, hrec]

/-! ## The closed form of the ideal chunks -/

theorem idealFrom_length (N cs : Int) : ∀ (n : Nat) (i : Int), (idealFrom N cs n i).length = n := by
  intro n
  induction n with
  | zero => intro i; rfl
  | succ n ih => intro i; simp [idealFrom, ih]

theorem idealFrom_getElem? (N cs : Int) :
    ∀ (n : Nat) (i : Int) (k : Nat), k < n →
      (idealFrom N cs n i)[k]? = some { From := i + k * cs, To := min (i + k * cs + cs) N } := by
  intro n
  induction n with
  | zero => intro i k hk; omega
  | succ n ih =>
    intro i k hk
    cases k with
    | zero => simp [idealFrom]
    | succ k =>
      have h := ih (i + cs) k (by omega)
      have e : i + cs + (k : Int) * cs = i + ((k + 1 : Nat) : Int) * cs := by push_cast; ring
      simp only [idealFrom, List.getElem?_cons_succ, h, e]

/-! ## Facts on `numChunks` -/

theorem numChunks_cast (N cs : Int) (hN : 0 ≤ N) (hcs : 1 ≤ cs) :
    ((numChunks N cs : Nat) : Int) = (N + cs - 1) / cs := by
  unfold numChunks
  exact Int.toNat_of_nonneg (Int.ediv_nonneg (by omega) (by omega))

theorem numChunks_upper (N cs : Int) (hN : 0 ≤ N) (hcs : 1 ≤ cs) :
    N ≤ (numChunks N cs : Int) * cs := by
  rw [numChunks_cast N cs hN hcs]
  have h1 := Int.emod_add_ediv (N + cs - 1) cs
  have h2 := Int.emod_lt_of_pos (N + cs - 1) (show 0 < cs by omega)
  have h3 : (N + cs - 1) / cs * cs = cs * ((N + cs - 1) / cs) := mul_comm _ _
  omega

theorem numChunks_lower (N cs : Int) (hN : 0 ≤ N) (hcs : 1 ≤ cs) :
    (numChunks N cs : Int) * cs - cs < N := by
  rw [numChunks_cast N cs hN hcs]
  have h1 := Int.emod_add_ediv (N + cs - 1) cs
  have h2 := Int.emod_nonneg (N + cs - 1) (show cs ≠ 0 by omega)
  have h3 : (N + cs - 1) / cs * cs = cs * ((N + cs - 1) / cs) := mul_comm _ _
  omega

/-- Without wrap-around the loop terminates and sends the ideal chunks. -/
theorem chunkSlice_eq_ideal (N cs : Int) (hN : 0 ≤ N) (hcs : 1 ≤ cs)
    (hov : (numChunks N cs : Int) * cs ≤ maxInt) (fuel : Nat) (hf : numChunks N cs < fuel) :
    chunkSlice fuel N cs = (idealFrom N cs (numChunks N cs) 0, true) := by
  unfold chunkSlice
  apply producer_run N cs hcs (numChunks N cs) 0 fuel (le_refl 0)
  · simpa using hov
  · simpa using numChunks_upper N cs hN hcs
  · intro _
    simpa using numChunks_lower N cs hN hcs
  · exact hf

/-- The simpler sufficient condition `N + cs ≤ maxInt` excludes wrap-around. -/
theorem numChunks_mul_le (N cs : Int) (hN : 0 ≤ N) (hcs : 1 ≤ cs) (h : N + cs ≤ maxInt) :
    (numChunks N cs : Int) * cs ≤ maxInt := by
  have := numChunks_lower N cs hN hcs
  omega

/-! ## Properties of the ideal chunks -/

theorem mul_index_unique (cs i a b : Int) (hcs : 1 ≤ cs) (ha1 : a * cs ≤ i)
    (ha2 : i < a * cs + cs) (hb1 : b * cs ≤ i) (hb2 : i < b * cs + cs) : a = b := by
  have hc : (0 : Int) ≤ cs := by omega
  rcases lt_trichotomy a b with h | h | h
  · have h1 : (a + 1) * cs ≤ b * cs := mul_le_mul_of_nonneg_right (by omega) hc
    have h2 : (a + 1) * cs = a * cs + cs := by ring
    omega
  · exact h
  · have h1 : (b + 1) * cs ≤ a * cs := mul_le_mul_of_nonneg_right (by omega) hc
    have h2 : (b + 1) * cs = b * cs + cs := by ring
    omega

theorem numChunks_eq_ceil (N cs : Int) (hN : 0 ≤ N) (hcs : 1 ≤ cs) :
    ((numChunks N cs : Nat) : Int) = ⌈(N : ℚ) / (cs : ℚ)⌉ := by
  symm
  rw [Int.ceil_eq_iff]
  have hpos : (0 : ℚ) < (cs : ℚ) := by exact_mod_cast (show (0 : Int) < cs by omega)
  have hu := numChunks_upper N cs hN hcs
  have hl := numChunks_lower N cs hN hcs
  constructor
  · rw [lt_div_iff₀ hpos]
    have : (((numChunks N cs : Nat) : Int) : ℚ) * (cs : ℚ) - (cs : ℚ) < (N : ℚ) := by
      exact_mod_cast hl
    linarith
  · rw [div_le_iff₀ hpos]
    exact_mod_cast hu

theorem numChunks_zero (cs : Int) (hcs : 1 ≤ cs) : numChunks 0 cs = 0 := by
  have h := numChunks_lower 0 cs (le_refl 0) hcs
  have h2 : 0 ≤ ((numChunks 0 cs : Nat) : Int) := Int.ofNat_nonneg _
  by_contra hne
  have h3 : (1 : Int) ≤ ((numChunks 0 cs : Nat) : Int) := by omega
  have h4 : 1 * cs ≤ ((numChunks 0 cs : Nat) : Int) * cs :=
    mul_le_mul_of_nonneg_right h3 (by omega)
  omega

/-- The index of the chunk that holds `i`. -/
theorem ideal_cover (N cs : Int) (hN : 0 ≤ N) (hcs : 1 ≤ cs) (i : Int) (h0 : 0 ≤ i)
    (hi : i < N) :
    ∃! k : Nat, ∃ c : IndexChunk, (idealFrom N cs (numChunks N cs) 0)[k]? = some c ∧
      c.From ≤ i ∧ i < c.To := by
  have hc : (0 : Int) ≤ cs := by omega
  have hq : 0 ≤ i / cs := Int.ediv_nonneg h0 hc
  have hk0 : (((i / cs).toNat : Nat) : Int) = i / cs := Int.toNat_of_nonneg hq
  have h1 := Int.emod_add_ediv i cs
  have h2 := Int.emod_nonneg i (show cs ≠ 0 by omega)
  have h3 := Int.emod_lt_of_pos i (show 0 < cs by omega)
  have h4 : i / cs * cs = cs * (i / cs) := mul_comm _ _
  have hu := numChunks_upper N cs hN hcs
  have hlt : (i / cs).toNat < numChunks N cs := by
    by_contra hge
    have hge2 : ((numChunks N cs : Nat) : Int) ≤ i / cs := by
      rw [← hk0]; exact_mod_cast not_lt.mp hge
    have := mul_le_mul_of_nonneg_right hge2 hc
    omega
  refine ⟨(i / cs).toNat, ⟨_, idealFrom_getElem? N cs _ 0 _ hlt, ?_, ?_⟩, ?_⟩
  · simp only [hk0]; omega
  · simp only [hk0, lt_min_iff]; omega
  · rintro k ⟨c, hc1, hc2, hc3⟩
    have hkn : k < numChunks N cs := by
      have := (List.getElem?_eq_some_iff.mp hc1).1
      simpa [idealFrom_length] using this
    rw [idealFrom_getElem? N cs _ 0 k hkn] at hc1
    have hceq := Option.some.inj hc1
    subst hceq
    simp only [lt_min_iff] at hc2 hc3
    have := mul_index_unique cs i (k : Int) (i / cs) hcs (by omega) (by omega) (by omega) (by omega)
    have h5 : ((k : Nat) : Int) = (((i / cs).toNat : Nat) : Int) := by rw [hk0]; exact this
    exact_mod_cast h5

theorem ideal_index_lt_iff (N cs : Int) (hN : 0 ≤ N) (hcs : 1 ≤ cs) (k : Nat) :
    k < numChunks N cs ↔ (k : Int) * cs < N := by
  have hc : (0 : Int) ≤ cs := by omega
  have hu := numChunks_upper N cs hN hcs
  have hl := numChunks_lower N cs hN hcs
  constructor
  · intro h
    have h1 : (k : Int) + 1 ≤ ((numChunks N cs : Nat) : Int) := by exact_mod_cast h
    have h2 := mul_le_mul_of_nonneg_right h1 hc
    have h3 : ((k : Int) + 1) * cs = (k : Int) * cs + cs := by ring
    omega
  · intro h
    by_contra hge
    have h1 : ((numChunks N cs : Nat) : Int) ≤ (k : Int) := by exact_mod_cast not_lt.mp hge
    have h2 := mul_le_mul_of_nonneg_right h1 hc
    omega

theorem ideal_getElem?_closed (N cs : Int) (hN : 0 ≤ N) (hcs : 1 ≤ cs) (k : Nat) :
    (idealFrom N cs (numChunks N cs) 0)[k]? =
      if (k : Int) * cs < N then
        some { From := (k : Int) * cs, To := min (((k : Int) + 1) * cs) N }
      else none := by
  by_cases h : (k : Int) * cs < N
  · have hk := (ideal_index_lt_iff N cs hN hcs k).mpr h
    have e : ((k : Int) + 1) * cs = 0 + (k : Int) * cs + cs := by ring
    rw [idealFrom_getElem? N cs _ 0 k hk, if_pos h, e]
    simp
  · have hk : ¬ k < numChunks N cs := fun hk => h ((ideal_index_lt_iff N cs hN hcs k).mp hk)
    rw [if_neg h, List.getElem?_eq_none_iff, idealFrom_length]
    omega

/-! ## A run in which the additions wrap around -/

/-- With `length = 2^63 - 1` and `chunkSize = 2^62` the loop variable cycles
through `0, 2^62, -2^63, -2^62`: the loop never ends and no chunk holds the
index `2^62`. -/
theorem wrapped_run :
    ∀ (fuel : Nat) (i : Int), i = 0 ∨ i = 2 ^ 62 ∨ i = -(2 ^ 63) ∨ i = -(2 ^ 62) →
      (producer (2 ^ 63 - 1) (2 ^ 62) fuel i).2 = false ∧
      ∀ c ∈ (producer (2 ^ 63 - 1) (2 ^ 62) fuel i).1, ¬ (c.From ≤ 2 ^ 62 ∧ 2 ^ 62 < c.To) := by
  intro fuel
  induction fuel with
  | zero => intro i _; simp [producer]
  | succ f ih =>
    intro i hi
    rcases hi with rfl | rfl | rfl | rfl
    · have h := ih (2 ^ 62) (by decide)
      have e : addInt 0 (2 ^ 62) = 2 ^ 62 := by decide
      have c : chunkAt (2 ^ 63 - 1) (2 ^ 62) 0 = ⟨0, 2 ^ 62⟩ := by decide
      have l : (0 : Int) < 2 ^ 63 - 1 := by decide
      simp only [producer, l, if_true, e, c, h.1, List.mem_cons, forall_eq_or_imp, true_and]
      exact ⟨by decide, h.2⟩
    · have h := ih (-(2 ^ 63)) (by decide)
      have e : addInt (2 ^ 62) (2 ^ 62) = -(2 ^ 63) := by decide
      have c : chunkAt (2 ^ 63 - 1) (2 ^ 62) (2 ^ 62) = ⟨2 ^ 62, -(2 ^ 63)⟩ := by decide
      have l : (2 ^ 62 : Int) < 2 ^ 63 - 1 := by decide
      simp only [producer, l, if_true, e, c, h.1, List.mem_cons, forall_eq_or_imp, true_and]
      exact ⟨by decide, h.2⟩
    · have h := ih (-(2 ^ 62)) (by decide)
      have e : addInt (-(2 ^ 63)) (2 ^ 62) = -(2 ^ 62) := by decide
      have c : chunkAt (2 ^ 63 - 1) (2 ^ 62) (-(2 ^ 63)) = ⟨-(2 ^ 63), -(2 ^ 62)⟩ := by decide
      have l : (-(2 ^ 63) : Int) < 2 ^ 63 - 1 := by decide
      simp only [producer, l, if_true, e, c, h.1, List.mem_cons, forall_eq_or_imp, true_and]
      exact ⟨by decide, h.2⟩
    · have h := ih 0 (by decide)
      have e : addInt (-(2 ^ 62)) (2 ^ 62) = 0 := by decide
      have c : chunkAt (2 ^ 63 - 1) (2 ^ 62) (-(2 ^ 62)) = ⟨-(2 ^ 62), 0⟩ := by decide
      have l : (-(2 ^ 62) : Int) < 2 ^ 63 - 1 := by decide
      simp only [producer, l, if_true, e, c, h.1, List.mem_cons, forall_eq_or_imp, true_and]
      exact ⟨by decide, h.2⟩

theorem wrapped_run_open (fuel : Nat) (L : List IndexChunk) :
    chunkSlice fuel (2 ^ 63 - 1) (2 ^ 62) ≠ (L, true) := by
  intro h
  have h1 := (wrapped_run fuel 0 (Or.inl rfl)).1
  unfold chunkSlice at h
  rw [h] at h1
  exact Bool.noConfusion h1

/-! ## Claims on `chunkSlice` -/

/-- C1 (amended): for every length `N ≥ 0` and `chunkSize ≥ 1` for which the
last upper bound `numChunks N chunkSize * chunkSize` computed by the loop does
not exceed the largest `int`, the loop ends and the chunks it has sent partition
`[0, N)`: the first chunk starts at 0, every later chunk starts where the
previous one ends, the last chunk ends at `N`, and every index of `[0, N)` lies
in the range of exactly one chunk. -/
theorem chunkSlice_partition (N cs : Int) (hN : 0 ≤ N) (hcs : 1 ≤ cs)
    (hov : (numChunks N cs : Int) * cs ≤ maxInt) (fuel : Nat) (hf : numChunks N cs < fuel) :
    ∃ L : List IndexChunk, chunkSlice fuel N cs = (L, true) ∧
      (∀ c, L.head? = some c → c.From = 0) ∧
      (∀ (k : Nat) (c d : IndexChunk), L[k]? = some c → L[k + 1]? = some d → d.From = c.To) ∧
      (∀ c, L.getLast? = some c → c.To = N) ∧
      (∀ i : Int, 0 ≤ i → i < N →
        ∃! k : Nat, ∃ c : IndexChunk, L[k]? = some c ∧ c.From ≤ i ∧ i < c.To) := by
  refine ⟨_, chunkSlice_eq_ideal N cs hN hcs hov fuel hf, ?_, ?_, ?_, ?_⟩
  · intro c hc
    rw [List.head?_eq_getElem?, ideal_getElem?_closed N cs hN hcs 0] at hc
    split at hc
    · cases hc; simp
    · cases hc
  · intro k c d hc hd
    rw [ideal_getElem?_closed N cs hN hcs k] at hc
    rw [ideal_getElem?_closed N cs hN hcs (k + 1)] at hd
    split at hc
    · split at hd
      · rename_i h1 h2
        cases hc; cases hd
        push_cast at h2 ⊢
        exact (min_eq_left (le_of_lt h2)).symm
      · cases hd
    · cases hc
  · intro c hc
    rw [List.getLast?_eq_getElem?, idealFrom_length,
      ideal_getElem?_closed N cs hN hcs (numChunks N cs - 1)] at hc
    split at hc
    · rename_i h1
      cases hc
      have hpos : 0 < numChunks N cs := by
        by_contra h0
        have h00 : numChunks N cs = 0 := by omega
        have hu := numChunks_upper N cs hN hcs
        rw [h00] at h1 hu
        simp at h1 hu
        omega
      have e : (((numChunks N cs - 1 : Nat) : Int) + 1) = ((numChunks N cs : Nat) : Int) := by
        have : ((numChunks N cs - 1 : Nat) : Int) = ((numChunks N cs : Nat) : Int) - 1 := by
          omega
        omega
      simp only [e]
      exact min_eq_right (numChunks_upper N cs hN hcs)
    · cases hc
  · intro i h0 hi
    exact ideal_cover N cs hN hcs i h0 hi

/-- Witness of C1 at `N = 250`, `chunkSize = 100`, four evaluations of the loop
condition. -/
theorem chunkSlice_partition_witness :
    (0 : Int) ≤ 250 ∧ (1 : Int) ≤ 100 ∧ (numChunks 250 100 : Int) * 100 ≤ maxInt ∧
    numChunks 250 100 < 4 ∧
    ∃ L : List IndexChunk, chunkSlice 4 250 100 = (L, true) ∧
      (∀ c, L.head? = some c → c.From = 0) ∧
      (∀ (k : Nat) (c d : IndexChunk), L[k]? = some c → L[k + 1]? = some d → d.From = c.To) ∧
      (∀ c, L.getLast? = some c → c.To = 250) ∧
      (∀ i : Int, 0 ≤ i → i < 250 →
        ∃! k : Nat, ∃ c : IndexChunk, L[k]? = some c ∧ c.From ≤ i ∧ i < c.To) :=
  ⟨by decide, by decide, by decide, by decide,
    chunkSlice_partition 250 100 (by decide) (by decide) (by decide) 4 (by decide)⟩

/-- C1 fails as stated: `N = 2^63 - 1` and `chunkSize = 2^62` are a length
`≥ 0` and a chunk size `≥ 1` of type `int`, yet the loop never ends with a
partition of `[0, N)`, and the index `2^62 < N` lies in no chunk that is ever
sent. -/
theorem chunkSlice_partition_wraps :
    (0 : Int) ≤ 2 ^ 63 - 1 ∧ (1 : Int) ≤ 2 ^ 62 ∧ (2 ^ 63 - 1 : Int) ≤ maxInt ∧
    (2 ^ 62 : Int) ≤ maxInt ∧ (0 : Int) ≤ 2 ^ 62 ∧ (2 ^ 62 : Int) < 2 ^ 63 - 1 ∧
    (¬ ∃ (fuel : Nat) (L : List IndexChunk),
      chunkSlice fuel (2 ^ 63 - 1) (2 ^ 62) = (L, true) ∧
      (∀ c, L.head? = some c → c.From = 0) ∧
      (∀ (k : Nat) (c d : IndexChunk), L[k]? = some c → L[k + 1]? = some d → d.From = c.To) ∧
      (∀ c, L.getLast? = some c → c.To = 2 ^ 63 - 1) ∧
      (∀ i : Int, 0 ≤ i → i < 2 ^ 63 - 1 →
        ∃! k : Nat, ∃ c : IndexChunk, L[k]? = some c ∧ c.From ≤ i ∧ i < c.To)) ∧
    (∀ (fuel : Nat), ∀ c ∈ (chunkSlice fuel (2 ^ 63 - 1) (2 ^ 62)).1,
      ¬ (c.From ≤ 2 ^ 62 ∧ 2 ^ 62 < c.To)) := by
  refine ⟨by decide, by decide, by decide, by decide, by decide, by decide, ?_, ?_⟩
  · rintro ⟨fuel, L, h, _⟩
    exact wrapped_run_open fuel L h
  · intro fuel
    exact (wrapped_run fuel 0 (Or.inl rfl)).2

/-- C2 (amended): for every length `N ≥ 0` and `chunkSize ≥ 1` for which
`numChunks N chunkSize * chunkSize` does not exceed the largest `int`, the loop
ends after having sent exactly `ceil(N / chunkSize)` chunks; for `N = 0` it
sends none. -/
theorem chunkSlice_count (N cs : Int) (hN : 0 ≤ N) (hcs : 1 ≤ cs)
    (hov : (numChunks N cs : Int) * cs ≤ maxInt) (fuel : Nat) (hf : numChunks N cs < fuel) :
    ∃ L : List IndexChunk, chunkSlice fuel N cs = (L, true) ∧
      ((L.length : Nat) : Int) = ⌈(N : ℚ) / (cs : ℚ)⌉ ∧ (N = 0 → L = []) := by
  refine ⟨_, chunkSlice_eq_ideal N cs hN hcs hov fuel hf, ?_, ?_⟩
  · rw [idealFrom_length]
    exact numChunks_eq_ceil N cs hN hcs
  · intro h0
    subst h0
    rw [numChunks_zero cs hcs]
    rfl

/-- Witness of C2 at `N = 250`, `chunkSize = 100`. -/
theorem chunkSlice_count_witness :
    (0 : Int) ≤ 250 ∧ (1 : Int) ≤ 100 ∧ (numChunks 250 100 : Int) * 100 ≤ maxInt ∧
    numChunks 250 100 < 4 ∧
    ∃ L : List IndexChunk, chunkSlice 4 250 100 = (L, true) ∧
      ((L.length : Nat) : Int) = ⌈((250 : Int) : ℚ) / ((100 : Int) : ℚ)⌉ ∧
      ((250 : Int) = 0 → L = []) :=
  ⟨by decide, by decide, by decide, by decide,
    chunkSlice_count 250 100 (by decide) (by decide) (by decide) 4 (by decide)⟩

/-- C2 fails as stated: for `N = 2^63 - 1` and `chunkSize = 2^62` the value of
`ceil(N / chunkSize)` is 2, but three chunks have been sent after three
iterations with the loop still running, and the loop never ends with exactly
`ceil(N / chunkSize)` chunks sent. -/
theorem chunkSlice_count_wraps :
    (0 : Int) ≤ 2 ^ 63 - 1 ∧ (1 : Int) ≤ 2 ^ 62 ∧ (2 ^ 63 - 1 : Int) ≤ maxInt ∧
    (2 ^ 62 : Int) ≤ maxInt ∧
    ⌈((2 ^ 63 - 1 : Int) : ℚ) / ((2 ^ 62 : Int) : ℚ)⌉ = 2 ∧
    chunkSlice 3 (2 ^ 63 - 1) (2 ^ 62) =
      ([⟨0, 2 ^ 62⟩, ⟨2 ^ 62, -(2 ^ 63)⟩, ⟨-(2 ^ 63), -(2 ^ 62)⟩], false) ∧
    ¬ ∃ (fuel : Nat) (L : List IndexChunk),
      chunkSlice fuel (2 ^ 63 - 1) (2 ^ 62) = (L, true) ∧
      ((L.length : Nat) : Int) = ⌈((2 ^ 63 - 1 : Int) : ℚ) / ((2 ^ 62 : Int) : ℚ)⌉ := by
  refine ⟨by decide, by decide, by decide, by decide, ?_, by decide, ?_⟩
  · rw [← numChunks_eq_ceil (2 ^ 63 - 1) (2 ^ 62) (by decide) (by decide)]
    decide
  · rintro ⟨fuel, L, h, _⟩
    exact wrapped_run_open fuel L h

/-- C3 (amended): for every `N ≥ 0` and `chunkSize ≥ 1` for which
`numChunks N chunkSize * chunkSize` does not exceed the largest `int`, the loop
ends and the `k`-th chunk it has sent (0-based) exists exactly when
`k * chunkSize < N` and is `{From: k*chunkSize, To: min((k+1)*chunkSize, N)}`;
every chunk but the last has length `chunkSize`, and the last one ends at `N`
and is at most `chunkSize` long. -/
theorem chunkSlice_kth (N cs : Int) (hN : 0 ≤ N) (hcs : 1 ≤ cs)
    (hov : (numChunks N cs : Int) * cs ≤ maxInt) (fuel : Nat) (hf : numChunks N cs < fuel) :
    ∃ L : List IndexChunk, chunkSlice fuel N cs = (L, true) ∧
      (∀ k : Nat, L[k]? =
        if (k : Int) * cs < N then
          some { From := (k : Int) * cs, To := min (((k : Int) + 1) * cs) N }
        else none) ∧
      (∀ (k : Nat) (c : IndexChunk), k + 1 < L.length → L[k]? = some c →
        c.To - c.From = cs) ∧
      (∀ c, L.getLast? = some c → c.To = N ∧ c.To - c.From ≤ cs) := by
  have hu := numChunks_upper N cs hN hcs
  refine ⟨_, chunkSlice_eq_ideal N cs hN hcs hov fuel hf, ?_, ?_, ?_⟩
  · intro k
    exact ideal_getElem?_closed N cs hN hcs k
  · intro k c hk hc
    rw [idealFrom_length] at hk
    have h1 := (ideal_index_lt_iff N cs hN hcs (k + 1)).mp hk
    have h0 := (ideal_index_lt_iff N cs hN hcs k).mp (by omega)
    push_cast at h1
    rw [ideal_getElem?_closed N cs hN hcs k, if_pos h0] at hc
    cases hc
    simp only [min_eq_left (le_of_lt h1)]
    ring
  · intro c hc
    rw [List.getLast?_eq_getElem?, idealFrom_length,
      ideal_getElem?_closed N cs hN hcs (numChunks N cs - 1)] at hc
    split at hc
    · rename_i h1
      cases hc
      have hpos : 0 < numChunks N cs := by
        by_contra h0
        have h00 : numChunks N cs = 0 := by omega
        rw [h00] at h1 hu
        simp at h1 hu
        omega
      have e : ((numChunks N cs - 1 : Nat) : Int) = ((numChunks N cs : Nat) : Int) - 1 := by
        omega
      simp only [e, sub_add_cancel, min_eq_right hu]
      have e2 : (((numChunks N cs : Nat) : Int) - 1) * cs
          = ((numChunks N cs : Nat) : Int) * cs - cs := by ring
      rw [e2]
      constructor
      · trivial
      · omega
    · cases hc

/-- Witness of C3 at `N = 250`, `chunkSize = 100`. -/
theorem chunkSlice_kth_witness :
    (0 : Int) ≤ 250 ∧ (1 : Int) ≤ 100 ∧ (numChunks 250 100 : Int) * 100 ≤ maxInt ∧
    numChunks 250 100 < 4 ∧
    ∃ L : List IndexChunk, chunkSlice 4 250 100 = (L, true) ∧
      (∀ k : Nat, L[k]? =
        if (k : Int) * 100 < 250 then
          some { From := (k : Int) * 100, To := min (((k : Int) + 1) * 100) 250 }
        else none) ∧
      (∀ (k : Nat) (c : IndexChunk), k + 1 < L.length → L[k]? = some c →
        c.To - c.From = 100) ∧
      (∀ c, L.getLast? = some c → c.To = 250 ∧ c.To - c.From ≤ 100) :=
  ⟨by decide, by decide, by decide, by decide,
    chunkSlice_kth 250 100 (by decide) (by decide) (by decide) 4 (by decide)⟩

/-- C3 fails as stated: for `N = 2^63 - 1` and `chunkSize = 2^62` the chunk of
index 1 that the loop sends is `{From: 2^62, To: -2^63}`, not
`{From: 1*chunkSize, To: min(2*chunkSize, N)}`. -/
theorem chunkSlice_kth_wraps :
    (0 : Int) ≤ 2 ^ 63 - 1 ∧ (1 : Int) ≤ 2 ^ 62 ∧ (2 ^ 63 - 1 : Int) ≤ maxInt ∧
    (2 ^ 62 : Int) ≤ maxInt ∧
    (chunkSlice 2 (2 ^ 63 - 1) (2 ^ 62)).1[1]? = some ⟨2 ^ 62, -(2 ^ 63)⟩ ∧
    (⟨2 ^ 62, -(2 ^ 63)⟩ : IndexChunk) ≠
      { From := ((1 : Nat) : Int) * 2 ^ 62,
        To := min ((((1 : Nat) : Int) + 1) * 2 ^ 62) (2 ^ 63 - 1) } := by
  refine ⟨by decide, by decide, by decide, by decide, by decide, by decide⟩

/-- C10: `chunkSlice(250, 100)` sends exactly the three chunks `{0, 100}`,
`{100, 200}`, `{200, 250}`, in that order, and then closes the channel (four
evaluations of the loop condition are enough, and more change nothing). -/
theorem chunkSlice_250_100 (fuel : Nat) (hf : 4 ≤ fuel) :
    chunkSlice fuel 250 100 = ([⟨0, 100⟩, ⟨100, 200⟩, ⟨200, 250⟩], true) := by
  have hn : numChunks 250 100 = 3 := by decide
  rw [chunkSlice_eq_ideal 250 100 (by decide) (by decide) (by decide) fuel (by omega), hn]
  decide

/-- Witness of C10 with exactly four evaluations of the loop condition. -/
theorem chunkSlice_250_100_witness :
    4 ≤ 4 ∧ chunkSlice 4 250 100 = ([⟨0, 100⟩, ⟨100, 200⟩, ⟨200, 250⟩], true) :=
  ⟨by decide, chunkSlice_250_100 4 (by decide)⟩

/-! ## `newDB` -/

theorem newDB_cases (dbType : String) :
    (supported dbType ∧ ∃ d, newDB dbType = (some d, none) ∧ d.name = dbType) ∨
    (¬ supported dbType ∧
      newDB dbType = (none, some (Err.message ("Invalid database dialect, " ++ dbType)))) := by
  unfold newDB supported
  by_cases h1 : dbType = dialectSqlite3 ∨ dbType = dialectMysql ∨ dbType = dialectPostgreSQL
  · left
    exact ⟨by tauto, Driver.RDBDriver dbType, by rw [if_pos h1], rfl⟩
  · by_cases h2 : dbType = dialectRedis
    · left
      exact ⟨by tauto, Driver.RedisDriver dbType, by rw [if_neg h1, if_pos h2], rfl⟩
    · right
      exact ⟨by tauto, by rw [if_neg h1, if_neg h2]⟩

theorem newDB_eq_of_fst (dbType : String) (d : Driver) (h : (newDB dbType).1 = some d) :
    newDB dbType = (some d, none) := by
  rcases newDB_cases dbType with ⟨_, d', h1, _⟩ | ⟨_, h1⟩
  · rw [h1] at h ⊢
    simpa using h
  · rw [h1] at h
    simp at h

/-! ## The six paths through `NewDB` -/

theorem NewDB_path_dialect {σ : Type} (b : Backend σ) (dbType dbPath : String)
    (debugSQL : Bool) (option : OpenOption) (w : World σ) (e : Err)
    (h : newDB dbType = (none, some e)) :
    NewDB b dbType dbPath debugSQL option w =
      some ⟨none, false, some (Err.wrapping "Failed to new db. err: " e), w⟩ := by
  simp [NewDB, h]

theorem NewDB_path_open {σ : Type} (b : Backend σ) (dbType dbPath : String)
    (debugSQL : Bool) (option : OpenOption) (w : World σ) (d : Driver) (lk : Bool) (e : Err) (s1 : σ)
    (h : newDB dbType = (some d, none))
    (ho : b.OpenDB d dbType dbPath debugSQL option w.state = ((lk, some e), s1)) :
    NewDB b dbType dbPath debugSQL option w =
      some ⟨none, lk, some e, ⟨s1, w.calls ++ [Call.OpenDB]⟩⟩ := by
  cases lk <;> simp [NewDB, h, invokeOpenDB, ho]

theorem NewDB_path_check {σ : Type} (b : Backend σ) (dbType dbPath : String)
    (debugSQL : Bool) (option : OpenOption) (w : World σ) (d : Driver) (lk v : Bool) (e : Err) (s1 s2 : σ)
    (h : newDB dbType = (some d, none))
    (ho : b.OpenDB d dbType dbPath debugSQL option w.state = ((lk, none), s1))
    (hv : b.IsGoCPEDictModelV1 d s1 = ((v, some e), s2)) :
    NewDB b dbType dbPath debugSQL option w =
      some ⟨none, false, some (Err.wrapping "Failed to IsGoCPEDictModelV1. err: " e),
        ⟨s2, w.calls ++ [Call.OpenDB] ++ [Call.IsGoCPEDictModelV1]⟩⟩ := by
  simp [NewDB, h, invokeOpenDB, ho, invokeIsGoCPEDictModelV1, hv]

theorem NewDB_path_v1 {σ : Type} (b : Backend σ) (dbType dbPath : String)
    (debugSQL : Bool) (option : OpenOption) (w : World σ) (d : Driver) (lk : Bool) (s1 s2 : σ)
    (h : newDB dbType = (some d, none))
    (ho : b.OpenDB d dbType dbPath debugSQL option w.state = ((lk, none), s1))
    (hv : b.IsGoCPEDictModelV1 d s1 = ((true, none), s2)) :
    NewDB b dbType dbPath debugSQL option w =
      some ⟨none, false, some (Err.message
        "Failed to NewDB. Since SchemaVersion is incompatible, delete Database and fetch again."),
        ⟨s2, w.calls ++ [Call.OpenDB] ++ [Call.IsGoCPEDictModelV1]⟩⟩ := by
  simp [NewDB, h, invokeOpenDB, ho, invokeIsGoCPEDictModelV1, hv]

theorem NewDB_path_migrate {σ : Type} (b : Backend σ) (dbType dbPath : String)
    (debugSQL : Bool) (option : OpenOption) (w : World σ) (d : Driver) (lk : Bool) (e : Err) (s1 s2 s3 : σ)
    (h : newDB dbType = (some d, none))
    (ho : b.OpenDB d dbType dbPath debugSQL option w.state = ((lk, none), s1))
    (hv : b.IsGoCPEDictModelV1 d s1 = ((false, none), s2))
    (hm : b.MigrateDB d s2 = (some e, s3)) :
    NewDB b dbType dbPath debugSQL option w =
      some ⟨some d, false, some (Err.wrapping "Failed to migrate db. err: " e),
        ⟨s3, w.calls ++ [Call.OpenDB] ++ [Call.IsGoCPEDictModelV1] ++ [Call.MigrateDB]⟩⟩ := by
  simp [NewDB, h, invokeOpenDB, ho, invokeIsGoCPEDictModelV1, hv, invokeMigrateDB, hm]

theorem NewDB_path_ready {σ : Type} (b : Backend σ) (dbType dbPath : String)
    (debugSQL : Bool) (option : OpenOption) (w : World σ) (d : Driver) (lk : Bool) (s1 s2 s3 : σ)
    (h : newDB dbType = (some d, none))
    (ho : b.OpenDB d dbType dbPath debugSQL option w.state = ((lk, none), s1))
    (hv : b.IsGoCPEDictModelV1 d s1 = ((false, none), s2))
    (hm : b.MigrateDB d s2 = (none, s3)) :
    NewDB b dbType dbPath debugSQL option w =
      some ⟨some d, false, none,
        ⟨s3, w.calls ++ [Call.OpenDB] ++ [Call.IsGoCPEDictModelV1] ++ [Call.MigrateDB]⟩⟩ := by
  simp [NewDB, h, invokeOpenDB, ho, invokeIsGoCPEDictModelV1, hv, invokeMigrateDB, hm]

/-! ## Claims on `NewDB` and `newDB` -/

/-- C4: for a dialect for which `newDB` constructs the driver `d` (a supported
dialect) and every behaviour of the driver, if `OpenDB` returns without error
and `IsGoCPEDictModelV1` returns `true` (with or without an error), then
`NewDB` returns, never invokes `MigrateDB`, and its result is a non-nil error,
a nil driver and `locked = false`. -/
theorem NewDB_v1_never_migrates {σ : Type} (b : Backend σ) (dbType dbPath : String)
    (debugSQL : Bool) (option : OpenOption) (s s1 s2 : σ) (d : Driver) (lk : Bool)
    (e : error) (hd : (newDB dbType).1 = some d)
    (ho : b.OpenDB d dbType dbPath debugSQL option s = ((lk, none), s1))
    (hv : b.IsGoCPEDictModelV1 d s1 = ((true, e), s2)) :
    ∃ r, NewDB b dbType dbPath debugSQL option ⟨s, []⟩ = some r ∧
      Call.MigrateDB ∉ r.world.calls ∧ r.err ≠ none ∧ r.driver = none ∧
      r.locked = false := by
  have h := newDB_eq_of_fst dbType d hd
  cases e with
  | none =>
    exact ⟨_, NewDB_path_v1 b dbType dbPath debugSQL option ⟨s, []⟩ d lk s1 s2 h ho hv,
      by simp, by simp, rfl, rfl⟩
  | some e =>
    exact ⟨_, NewDB_path_check b dbType dbPath debugSQL option ⟨s, []⟩ d lk true e s1 s2 h ho hv,
      by simp, by simp, rfl, rfl⟩

/-- Witness of C4: dialect `sqlite3`, a store that opens and reports the legacy
schema. -/
theorem NewDB_v1_never_migrates_witness :
    (newDB "sqlite3").1 = some (Driver.RDBDriver "sqlite3") ∧
    (scripted (false, none) (true, none) none).OpenDB (Driver.RDBDriver "sqlite3")
      "sqlite3" "cpe.sqlite3" false ⟨0⟩ () = ((false, none), ()) ∧
    (scripted (false, none) (true, none) none).IsGoCPEDictModelV1
      (Driver.RDBDriver "sqlite3") () = ((true, none), ()) ∧
    ∃ r, NewDB (scripted (false, none) (true, none) none) "sqlite3" "cpe.sqlite3" false ⟨0⟩
        ⟨(), []⟩ = some r ∧
      Call.MigrateDB ∉ r.world.calls ∧ r.err ≠ none ∧ r.driver = none ∧
      r.locked = false :=
  ⟨rfl, rfl, rfl,
    NewDB_v1_never_migrates (scripted (false, none) (true, none) none) "sqlite3"
      "cpe.sqlite3" false ⟨0⟩ () () () (Driver.RDBDriver "sqlite3") false none rfl rfl rfl⟩

/-- C5: for a dialect for which `newDB` constructs the driver `d` (a supported
dialect), if `OpenDB` returns `locked = true` together with the non-nil error
`e`, then `NewDB` returns the nil driver, `locked = true` and that same error
`e`; `OpenDB` is the only driver method it has invoked, so neither
`IsGoCPEDictModelV1` nor `MigrateDB` nor `InsertCpes` is invoked. -/
theorem NewDB_locked {σ : Type} (b : Backend σ) (dbType dbPath : String) (debugSQL : Bool)
    (option : OpenOption) (s s1 : σ) (d : Driver) (e : Err)
    (hd : (newDB dbType).1 = some d)
    (ho : b.OpenDB d dbType dbPath debugSQL option s = ((true, some e), s1)) :
    ∃ r, NewDB b dbType dbPath debugSQL option ⟨s, []⟩ = some r ∧
      r.driver = none ∧ r.locked = true ∧ r.err = some e ∧
      r.world.calls = [Call.OpenDB] ∧
      Call.IsGoCPEDictModelV1 ∉ r.world.calls ∧ Call.MigrateDB ∉ r.world.calls ∧
      Call.InsertCpes ∉ r.world.calls := by
  have h := newDB_eq_of_fst dbType d hd
  exact ⟨_, NewDB_path_open b dbType dbPath debugSQL option ⟨s, []⟩ d true e s1 h ho,
    rfl, rfl, rfl, rfl, by simp, by simp, by simp⟩

/-- Witness of C5: dialect `sqlite3`, a store held by another process. -/
theorem NewDB_locked_witness :
    (newDB "sqlite3").1 = some (Driver.RDBDriver "sqlite3") ∧
    (scripted (true, some (Err.fromDriver 5)) (false, none) none).OpenDB
      (Driver.RDBDriver "sqlite3") "sqlite3" "cpe.sqlite3" false ⟨0⟩ ()
        = ((true, some (Err.fromDriver 5)), ()) ∧
    ∃ r, NewDB (scripted (true, some (Err.fromDriver 5)) (false, none) none) "sqlite3"
        "cpe.sqlite3" false ⟨0⟩ ⟨(), []⟩ = some r ∧
      r.driver = none ∧ r.locked = true ∧ r.err = some (Err.fromDriver 5) ∧
      r.world.calls = [Call.OpenDB] ∧
      Call.IsGoCPEDictModelV1 ∉ r.world.calls ∧ Call.MigrateDB ∉ r.world.calls ∧
      Call.InsertCpes ∉ r.world.calls :=
  ⟨rfl, rfl,
    NewDB_locked (scripted (true, some (Err.fromDriver 5)) (false, none) none) "sqlite3"
      "cpe.sqlite3" false ⟨0⟩ () () (Driver.RDBDriver "sqlite3") (Err.fromDriver 5) rfl rfl⟩

/-- C6: for every dialect and every behaviour of the driver, `NewDB` returns
and the sequence of driver methods it has invoked is a prefix of
`[OpenDB, IsGoCPEDictModelV1, MigrateDB]` (each at most once, in that order,
and no other method of `DB`); `IsGoCPEDictModelV1` is invoked only after
`OpenDB` returned without error, and `MigrateDB` only after, moreover,
`IsGoCPEDictModelV1` returned `false` without error. -/
theorem NewDB_call_order {σ : Type} (b : Backend σ) (dbType dbPath : String)
    (debugSQL : Bool) (option : OpenOption) (s : σ) :
    ∃ r, NewDB b dbType dbPath debugSQL option ⟨s, []⟩ = some r ∧
      r.world.calls <+: [Call.OpenDB, Call.IsGoCPEDictModelV1, Call.MigrateDB] ∧
      (Call.IsGoCPEDictModelV1 ∈ r.world.calls →
        ∃ (d : Driver) (lk : Bool) (s1 : σ), (newDB dbType).1 = some d ∧
          b.OpenDB d dbType dbPath debugSQL option s = ((lk, none), s1)) ∧
      (Call.MigrateDB ∈ r.world.calls →
        ∃ (d : Driver) (lk : Bool) (s1 s2 : σ), (newDB dbType).1 = some d ∧
          b.OpenDB d dbType dbPath debugSQL option s = ((lk, none), s1) ∧
          b.IsGoCPEDictModelV1 d s1 = ((false, none), s2)) := by
  rcases newDB_cases dbType with ⟨_, d, h, _⟩ | ⟨_, h⟩
  · have hd : (newDB dbType).1 = some d := by rw [h]
    rcases ho : b.OpenDB d dbType dbPath debugSQL option s with ⟨⟨lk, _ | e⟩, s1⟩
    · rcases hv : b.IsGoCPEDictModelV1 d s1 with ⟨⟨v, _ | e⟩, s2⟩
      · cases v
        · rcases hm : b.MigrateDB d s2 with ⟨_ | e, s3⟩
          · exact ⟨_, NewDB_path_ready b dbType dbPath debugSQL option ⟨s, []⟩ d lk s1 s2 s3 h ho hv hm,
              by simp, fun _ => ⟨d, lk, s1, hd, ho⟩, fun _ => ⟨d, lk, s1, s2, hd, ho, hv⟩⟩
          · exact ⟨_, NewDB_path_migrate b dbType dbPath debugSQL option ⟨s, []⟩ d lk e s1 s2 s3 h ho hv hm,
              by simp, fun _ => ⟨d, lk, s1, hd, ho⟩, fun _ => ⟨d, lk, s1, s2, hd, ho, hv⟩⟩
        · exact ⟨_, NewDB_path_v1 b dbType dbPath debugSQL option ⟨s, []⟩ d lk s1 s2 h ho hv,
            ⟨[Call.MigrateDB], rfl⟩, fun _ => ⟨d, lk, s1, hd, ho⟩, fun hc => by simp at hc⟩
      · exact ⟨_, NewDB_path_check b dbType dbPath debugSQL option ⟨s, []⟩ d lk v e s1 s2 h ho hv,
          ⟨[Call.MigrateDB], rfl⟩, fun _ => ⟨d, lk, s1, hd, ho⟩, fun hc => by simp at hc⟩
    · exact ⟨_, NewDB_path_open b dbType dbPath debugSQL option ⟨s, []⟩ d lk e s1 h ho,
        ⟨[Call.IsGoCPEDictModelV1, Call.MigrateDB], rfl⟩, fun hc => by simp at hc,
        fun hc => by simp at hc⟩
  · exact ⟨_, NewDB_path_dialect b dbType dbPath debugSQL option ⟨s, []⟩ _ h,
      ⟨_, rfl⟩, fun hc => by simp at hc, fun hc => by simp at hc⟩

/-- C7: `NewDB` returns, and its error is nil if and only if the dialect is
supported, `OpenDB` returned a nil error, `IsGoCPEDictModelV1` returned
`(false, nil)` and `MigrateDB` returned a nil error; in that case the driver
returned is the one that `newDB` constructed and `locked` is false.  In every
other case the error is non-nil: an error of `OpenDB` is returned as it is,
an error of `IsGoCPEDictModelV1` or of `MigrateDB` is returned wrapped. -/
theorem NewDB_succeeds_iff {σ : Type} (b : Backend σ) (dbType dbPath : String)
    (debugSQL : Bool) (option : OpenOption) (s : σ) :
    ∃ r, NewDB b dbType dbPath debugSQL option ⟨s, []⟩ = some r ∧
      (r.err = none ↔
        supported dbType ∧
        ∃ (d : Driver) (lk : Bool) (s1 s2 s3 : σ), (newDB dbType).1 = some d ∧
          b.OpenDB d dbType dbPath debugSQL option s = ((lk, none), s1) ∧
          b.IsGoCPEDictModelV1 d s1 = ((false, none), s2) ∧
          b.MigrateDB d s2 = (none, s3)) ∧
      (r.err = none →
        r.driver = (newDB dbType).1 ∧ r.driver ≠ none ∧ r.locked = false) ∧
      (∀ (d : Driver) (lk : Bool) (e : Err) (s1 : σ), (newDB dbType).1 = some d →
        b.OpenDB d dbType dbPath debugSQL option s = ((lk, some e), s1) →
        r.err = some e) ∧
      (∀ (d : Driver) (lk v : Bool) (e : Err) (s1 s2 : σ), (newDB dbType).1 = some d →
        b.OpenDB d dbType dbPath debugSQL option s = ((lk, none), s1) →
        b.IsGoCPEDictModelV1 d s1 = ((v, some e), s2) →
        r.err = some (Err.wrapping "Failed to IsGoCPEDictModelV1. err: " e)) ∧
      (∀ (d : Driver) (lk : Bool) (e : Err) (s1 s2 s3 : σ), (newDB dbType).1 = some d →
        b.OpenDB d dbType dbPath debugSQL option s = ((lk, none), s1) →
        b.IsGoCPEDictModelV1 d s1 = ((false, none), s2) →
        b.MigrateDB d s2 = (some e, s3) →
        r.err = some (Err.wrapping "Failed to migrate db. err: " e)) := by
  rcases newDB_cases dbType with ⟨hs, d, h, _⟩ | ⟨hs, h⟩
  · have hd : (newDB dbType).1 = some d := by rw [h]
    rcases ho : b.OpenDB d dbType dbPath debugSQL option s with ⟨⟨lk, _ | e⟩, s1⟩
    · rcases hv : b.IsGoCPEDictModelV1 d s1 with ⟨⟨v, _ | e⟩, s2⟩
      · cases v
        · rcases hm : b.MigrateDB d s2 with ⟨_ | e, s3⟩
          · refine ⟨_, NewDB_path_ready b dbType dbPath debugSQL option ⟨s, []⟩ d lk s1 s2 s3
              h ho hv hm, ?_, ?_, ?_, ?_, ?_⟩
            · exact ⟨fun _ => ⟨hs, d, lk, s1, s2, s3, hd, ho, hv, hm⟩, fun _ => rfl⟩
            · intro _; exact ⟨hd.symm, by simp, rfl⟩
            · intro d' lk' e' s1' hd' ho'
              rw [hd] at hd'; cases hd'; rw [ho] at ho'; cases ho'
            · intro d' lk' v' e' s1' s2' hd' ho' hv'
              rw [hd] at hd'; cases hd'; rw [ho] at ho'; cases ho'
              rw [hv] at hv'; cases hv'
            · intro d' lk' e' s1' s2' s3' hd' ho' hv' hm'
              rw [hd] at hd'; cases hd'; rw [ho] at ho'; cases ho'
              rw [hv] at hv'; cases hv'; rw [hm] at hm'; cases hm'
          · refine ⟨_, NewDB_path_migrate b dbType dbPath debugSQL option ⟨s, []⟩ d lk e s1 s2
              s3 h ho hv hm, ?_, ?_, ?_, ?_, ?_⟩
            · constructor
              · intro hr; cases hr
              · rintro ⟨_, d', lk', s1', s2', s3', hd', ho', hv', hm'⟩
                rw [hd] at hd'; cases hd'; rw [ho] at ho'; cases ho'
                rw [hv] at hv'; cases hv'; rw [hm] at hm'; cases hm'
            · intro hr; cases hr
            · intro d' lk' e' s1' hd' ho'
              rw [hd] at hd'; cases hd'; rw [ho] at ho'; cases ho'
            · intro d' lk' v' e' s1' s2' hd' ho' hv'
              rw [hd] at hd'; cases hd'; rw [ho] at ho'; cases ho'
              rw [hv] at hv'; cases hv'
            · intro d' lk' e' s1' s2' s3' hd' ho' hv' hm'
              rw [hd] at hd'; cases hd'; rw [ho] at ho'; cases ho'
              rw [hv] at hv'; cases hv'; rw [hm] at hm'; cases hm'
              rfl
        · refine ⟨_, NewDB_path_v1 b dbType dbPath debugSQL option ⟨s, []⟩ d lk s1 s2
            h ho hv, ?_, ?_, ?_, ?_, ?_⟩
          · constructor
            · intro hr; cases hr
            · rintro ⟨_, d', lk', s1', s2', s3', hd', ho', hv', hm'⟩
              rw [hd] at hd'; cases hd'; rw [ho] at ho'; cases ho'
              rw [hv] at hv'; cases hv'
          · intro hr; cases hr
          · intro d' lk' e' s1' hd' ho'
            rw [hd] at hd'; cases hd'; rw [ho] at ho'; cases ho'
          · intro d' lk' v' e' s1' s2' hd' ho' hv'
            rw [hd] at hd'; cases hd'; rw [ho] at ho'; cases ho'
            rw [hv] at hv'; cases hv'
          · intro d' lk' e' s1' s2' s3' hd' ho' hv' hm'
            rw [hd] at hd'; cases hd'; rw [ho] at ho'; cases ho'
            rw [hv] at hv'; cases hv'
      · refine ⟨_, NewDB_path_check b dbType dbPath debugSQL option ⟨s, []⟩ d lk v e s1 s2
          h ho hv, ?_, ?_, ?_, ?_, ?_⟩
        · constructor
          · intro hr; cases hr
          · rintro ⟨_, d', lk', s1', s2', s3', hd', ho', hv', hm'⟩
            rw [hd] at hd'; cases hd'; rw [ho] at ho'; cases ho'
            rw [hv] at hv'; cases hv'
        · intro hr; cases hr
        · intro d' lk' e' s1' hd' ho'
          rw [hd] at hd'; cases hd'; rw [ho] at ho'; cases ho'
        · intro d' lk' v' e' s1' s2' hd' ho' hv'
          rw [hd] at hd'; cases hd'; rw [ho] at ho'; cases ho'
          rw [hv] at hv'; cases hv'
          rfl
        · intro d' lk' e' s1' s2' s3' hd' ho' hv' hm'
          rw [hd] at hd'; cases hd'; rw [ho] at ho'; cases ho'
          rw [hv] at hv'; cases hv'
    · refine ⟨_, NewDB_path_open b dbType dbPath debugSQL option ⟨s, []⟩ d lk e s1 h ho,
        ?_, ?_, ?_, ?_, ?_⟩
      · constructor
        · intro hr; cases hr
        · rintro ⟨_, d', lk', s1', s2', s3', hd', ho', hv', hm'⟩
          rw [hd] at hd'; cases hd'; rw [ho] at ho'; cases ho'
      · intro hr; cases hr
      · intro d' lk' e' s1' hd' ho'
        rw [hd] at hd'; cases hd'; rw [ho] at ho'; cases ho'
        rfl
      · intro d' lk' v' e' s1' s2' hd' ho' hv'
        rw [hd] at hd'; cases hd'; rw [ho] at ho'; cases ho'
      · intro d' lk' e' s1' s2' s3' hd' ho' hv' hm'
        rw [hd] at hd'; cases hd'; rw [ho] at ho'; cases ho'
  · have hd : (newDB dbType).1 = none := by rw [h]
    refine ⟨_, NewDB_path_dialect b dbType dbPath debugSQL option ⟨s, []⟩ _ h,
      ?_, ?_, ?_, ?_, ?_⟩
    · constructor
      · intro hr; cases hr
      · rintro ⟨hs', _⟩
        exact absurd hs' hs
    · intro hr; cases hr
    · intro d' lk' e' s1' hd' ho'
      rw [hd] at hd'; cases hd'
    · intro d' lk' v' e' s1' s2' hd' ho' hv'
      rw [hd] at hd'; cases hd'
    · intro d' lk' e' s1' s2' s3' hd' ho' hv' hm'
      rw [hd] at hd'; cases hd'

/-- C8 (evaluation at the failing input): with dialect `sqlite3` and a driver
whose `OpenDB` and `IsGoCPEDictModelV1` succeed and whose `MigrateDB` fails,
`NewDB` returns a non-nil error together with the driver it has constructed
and opened, not with a nil driver. -/
theorem NewDB_migrate_failure_returns_driver :
    NewDB (scripted (false, none) (false, none) (some (Err.fromDriver 7))) "sqlite3"
        "cpe.sqlite3" false ⟨0⟩ ⟨(), []⟩ =
      some ⟨some (Driver.RDBDriver "sqlite3"), false,
        some (Err.wrapping "Failed to migrate db. err: " (Err.fromDriver 7)),
        ⟨(), [Call.OpenDB, Call.IsGoCPEDictModelV1, Call.MigrateDB]⟩⟩ ∧
    (some (Driver.RDBDriver "sqlite3") : DB) ≠ none ∧
    (some (Err.wrapping "Failed to migrate db. err: " (Err.fromDriver 7)) : error) ≠ none :=
  ⟨rfl, by simp, by simp⟩

/-- C9: `newDB(dbType)` returns an error if and only if `dbType` is none of
`sqlite3`, `mysql`, `postgres`, `redis`; for the three relational dialects it
returns an `RDBDriver` and for `redis` a `RedisDriver`, without error and with
the field `name` equal to `dbType`; for any other `dbType`, whatever the
driver behaviour, `NewDB` returns a nil driver, `locked = false` and a non-nil
error, and has invoked no driver method. -/
theorem newDB_dialects (dbType : String) :
    ((newDB dbType).2 ≠ none ↔
      dbType ≠ "sqlite3" ∧ dbType ≠ "mysql" ∧ dbType ≠ "postgres" ∧ dbType ≠ "redis") ∧
    (dbType = "sqlite3" ∨ dbType = "mysql" ∨ dbType = "postgres" →
      newDB dbType = (some (Driver.RDBDriver dbType), none) ∧
      (Driver.RDBDriver dbType).name = dbType) ∧
    (dbType = "redis" →
      newDB dbType = (some (Driver.RedisDriver dbType), none) ∧
      (Driver.RedisDriver dbType).name = dbType) ∧
    (dbType ≠ "sqlite3" ∧ dbType ≠ "mysql" ∧ dbType ≠ "postgres" ∧ dbType ≠ "redis" →
      ∀ (σ : Type) (b : Backend σ) (dbPath : String) (debugSQL : Bool)
        (option : OpenOption) (s : σ),
        ∃ r, NewDB b dbType dbPath debugSQL option ⟨s, []⟩ = some r ∧
          r.driver = none ∧ r.locked = false ∧ r.err ≠ none ∧ r.world.calls = []) := by
  refine ⟨?_, ?_, ?_, ?_⟩
  · unfold newDB dialectSqlite3 dialectMysql dialectPostgreSQL dialectRedis
    by_cases h1 : dbType = "sqlite3" ∨ dbType = "mysql" ∨ dbType = "postgres"
    · rw [if_pos h1]
      simp only [ne_eq, not_true_eq_false, false_iff]
      tauto
    · by_cases h2 : dbType = "redis"
      · rw [if_neg h1, if_pos h2]
        simp only [ne_eq, not_true_eq_false, false_iff]
        tauto
      · rw [if_neg h1, if_neg h2]
        simp only [ne_eq, reduceCtorEq, not_false_eq_true, true_iff]
        tauto
  · intro h1
    unfold newDB dialectSqlite3 dialectMysql dialectPostgreSQL
    rw [if_pos h1]
    exact ⟨rfl, rfl⟩
  · intro h2
    have h1 : ¬ (dbType = "sqlite3" ∨ dbType = "mysql" ∨ dbType = "postgres") := by
      subst h2
      decide
    unfold newDB dialectSqlite3 dialectMysql dialectPostgreSQL dialectRedis
    rw [if_neg h1, if_pos h2]
    exact ⟨rfl, rfl⟩
  · rintro ⟨h1, h2, h3, h4⟩ σ b dbPath debugSQL option s
    have h : newDB dbType
        = (none, some (Err.message ("Invalid database dialect, " ++ dbType))) := by
      unfold newDB dialectSqlite3 dialectMysql dialectPostgreSQL dialectRedis
      rw [if_neg (by tauto), if_neg h4]
    exact ⟨_, NewDB_path_dialect b dbType dbPath debugSQL option ⟨s, []⟩ _ h,
      rfl, rfl, by simp, rfl⟩

/-! ## Termination, bounds and the degenerate chunk size -/

theorem numChunks_nonpos (N cs : Int) (hN : N ≤ 0) (hcs : 1 ≤ cs) : numChunks N cs = 0 := by
  unfold numChunks
  apply Int.toNat_of_nonpos
  have h : (N + cs - 1) / cs < 1 := Int.ediv_lt_of_lt_mul (by omega) (by omega)
  omega

theorem chunkSlice_nonpos (N cs : Int) (hN : N ≤ 0) (fuel : Nat) (hf : 0 < fuel) :
    chunkSlice fuel N cs = ([], true) := by
  obtain ⟨f, rfl⟩ := Nat.exists_eq_succ_of_ne_zero (Nat.pos_iff_ne_zero.mp hf)
  have h : ¬ (0 : Int) < N := by omega
  simp [chunkSlice, producer, h]

/-- The loop ends with the ideal chunks for a length of any sign. -/
theorem chunkSlice_eq_ideal_any (N cs : Int) (hcs : 1 ≤ cs)
    (hov : (numChunks N cs : Int) * cs ≤ maxInt) (fuel : Nat) (hf : numChunks N cs < fuel) :
    chunkSlice fuel N cs = (idealFrom N cs (numChunks N cs) 0, true) := by
  by_cases hN : 0 ≤ N
  · exact chunkSlice_eq_ideal N cs hN hcs hov fuel hf
  · have h0 := numChunks_nonpos N cs (by omega) hcs
    rw [chunkSlice_nonpos N cs (by omega) fuel (by omega), h0]
    rfl

theorem ideal_from_eq (N cs : Int) :
    ∀ (n : Nat) (i : Int) (k : Nat) (c : IndexChunk),
      (idealFrom N cs n i)[k]? = some c → c.From = i + (k : Int) * cs := by
  intro n i k c h
  have hk : k < n := by
    have := (List.getElem?_eq_some_iff.mp h).1
    simpa [idealFrom_length] using this
  rw [idealFrom_getElem? N cs n i k hk] at h
  cases h
  rfl

theorem producer_zero_size (N : Int) (hN : 0 < N) :
    ∀ fuel : Nat, producer N 0 fuel 0 = (List.replicate fuel ⟨0, 0⟩, false) := by
  intro fuel
  induction fuel with
  | zero => rfl
  | succ f ih =>
    have e : addInt 0 0 = 0 := by decide
    have c : chunkAt N 0 0 = ⟨0, 0⟩ := by
      unfold chunkAt
      simp only [e]
      rw [if_neg (by omega)]
    simp only [producer, hN, if_true, e, c, ih, List.replicate_succ]

theorem producer_eq_producerZ (N cs : Int) (hcs : 1 ≤ cs) (hb : N + cs ≤ maxInt) :
    ∀ (fuel : Nat) (i : Int), 0 ≤ i →
      producer N cs fuel i = producerZ N cs fuel i ∧
      ∀ c ∈ (producer N cs fuel i).1,
        addInt c.From cs = c.From + cs ∧ minInt ≤ c.From + cs ∧ c.From + cs ≤ maxInt := by
  intro fuel
  induction fuel with
  | zero => intro i _; simp [producer, producerZ]
  | succ f ih =>
    intro i hi
    by_cases hlt : i < N
    · have hmin : minInt ≤ i + cs := by unfold minInt; omega
      have hmx : i + cs ≤ maxInt := by omega
      have ha := addInt_eq_add i cs hmin hmx
      have hc : chunkAt N cs i = chunkAtZ N cs i := by
        unfold chunkAt chunkAtZ
        simp only [ha]
      have hfrom : (chunkAtZ N cs i).From = i := by
        unfold chunkAtZ
        by_cases h : N < i + cs <;> simp [h]
      obtain ⟨h1, h2⟩ := ih (i + cs) (by omega)
      simp only [producer, producerZ, hlt, if_true, ha, hc, h1, List.mem_cons,
        forall_eq_or_imp, hfrom, true_and]
      refine ⟨⟨hmin, hmx⟩, ?_⟩
      rw [h1] at h2
      exact h2
    · simp [producer, producerZ, hlt]

/-- C11 (amended): for every length `N` and `chunkSize ≥ 1` for which
`numChunks N chunkSize * chunkSize` does not exceed the largest `int`, the
producer loop terminates: with any fuel above `numChunks N chunkSize` the run
reaches `close(ch)` after the same finite list of chunks; the loop variable
(the `From` of the successive chunks) grows by `chunkSize` from one iteration
to the next, stays below `N` while the loop runs, and the last iteration takes
it to `N` or beyond. -/
theorem chunkSlice_terminates (N cs : Int) (hcs : 1 ≤ cs)
    (hov : (numChunks N cs : Int) * cs ≤ maxInt) :
    ∃ L : List IndexChunk,
      (∀ fuel : Nat, numChunks N cs < fuel → chunkSlice fuel N cs = (L, true)) ∧
      L.length = numChunks N cs ∧
      (∀ (k : Nat) (c d : IndexChunk), L[k]? = some c → L[k + 1]? = some d →
        d.From = c.From + cs ∧ c.From < d.From) ∧
      (∀ c ∈ L, c.From < N) ∧
      (∀ c, L.getLast? = some c → N ≤ c.From + cs) := by
  refine ⟨idealFrom N cs (numChunks N cs) 0,
    fun fuel hf => chunkSlice_eq_ideal_any N cs hcs hov fuel hf,
    idealFrom_length N cs _ 0, ?_, ?_, ?_⟩
  · intro k c d hc hd
    have h1 := ideal_from_eq N cs _ 0 k c hc
    have h2 := ideal_from_eq N cs _ 0 (k + 1) d hd
    push_cast at h2
    have e : ((k : Int) + 1) * cs = (k : Int) * cs + cs := by ring
    rw [e] at h2
    constructor <;> omega
  · intro c hc
    obtain ⟨k, hk⟩ := List.getElem?_of_mem hc
    have hkn : k < numChunks N cs := by
      have := (List.getElem?_eq_some_iff.mp hk).1
      simpa [idealFrom_length] using this
    have h1 := ideal_from_eq N cs _ 0 k c hk
    by_cases hN : 0 ≤ N
    · have := (ideal_index_lt_iff N cs hN hcs k).mp hkn
      omega
    · have h0 := numChunks_nonpos N cs (by omega) hcs
      omega
  · intro c hc
    rw [List.getLast?_eq_getElem?, idealFrom_length] at hc
    have h1 := ideal_from_eq N cs _ 0 _ c hc
    have hkn : numChunks N cs - 1 < numChunks N cs := by
      have := (List.getElem?_eq_some_iff.mp hc).1
      simpa [idealFrom_length] using this
    by_cases hN : 0 ≤ N
    · have hu := numChunks_upper N cs hN hcs
      have e : ((numChunks N cs - 1 : Nat) : Int) = ((numChunks N cs : Nat) : Int) - 1 := by
        omega
      rw [e] at h1
      have e2 : (((numChunks N cs : Nat) : Int) - 1) * cs
          = ((numChunks N cs : Nat) : Int) * cs - cs := by ring
      rw [e2] at h1
      omega
    · have h0 := numChunks_nonpos N cs (by omega) hcs
      omega

/-- Witness of C11 at `N = 250`, `chunkSize = 100`. -/
theorem chunkSlice_terminates_witness :
    (1 : Int) ≤ 100 ∧ (numChunks 250 100 : Int) * 100 ≤ maxInt ∧
    ∃ L : List IndexChunk,
      (∀ fuel : Nat, numChunks 250 100 < fuel → chunkSlice fuel 250 100 = (L, true)) ∧
      L.length = numChunks 250 100 ∧
      (∀ (k : Nat) (c d : IndexChunk), L[k]? = some c → L[k + 1]? = some d →
        d.From = c.From + 100 ∧ c.From < d.From) ∧
      (∀ c ∈ L, c.From < 250) ∧
      (∀ c, L.getLast? = some c → 250 ≤ c.From + 100) :=
  ⟨by decide, by decide, chunkSlice_terminates 250 100 (by decide) (by decide)⟩

/-- C11 fails as stated: for `N = 2^63 - 1` and `chunkSize = 2^62` the loop
variable does not keep increasing (the third chunk starts at `-2^63`, below the
second one) and no amount of fuel lets the run reach `close(ch)`. -/
theorem chunkSlice_terminates_wraps :
    (1 : Int) ≤ 2 ^ 62 ∧ (2 ^ 63 - 1 : Int) ≤ maxInt ∧ (2 ^ 62 : Int) ≤ maxInt ∧
    chunkSlice 3 (2 ^ 63 - 1) (2 ^ 62) =
      ([⟨0, 2 ^ 62⟩, ⟨2 ^ 62, -(2 ^ 63)⟩, ⟨-(2 ^ 63), -(2 ^ 62)⟩], false) ∧
    (∀ fuel : Nat, (chunkSlice fuel (2 ^ 63 - 1) (2 ^ 62)).2 = false) ∧
    ¬ ∃ (fuel : Nat) (L : List IndexChunk),
      chunkSlice fuel (2 ^ 63 - 1) (2 ^ 62) = (L, true) := by
  refine ⟨by decide, by decide, by decide, by decide, ?_, ?_⟩
  · intro fuel
    exact (wrapped_run fuel 0 (Or.inl rfl)).1
  · rintro ⟨fuel, L, h⟩
    exact wrapped_run_open fuel L h

/-- C15 (amended): for every `N ≥ 0` and `chunkSize ≥ 1` for which
`numChunks N chunkSize * chunkSize` does not exceed the largest `int`, the loop
ends and every chunk it has sent satisfies `0 ≤ From < To ≤ N`: it is not empty
and its bounds are valid slice bounds for a collection of length `N`. -/
theorem chunkSlice_bounds (N cs : Int) (hN : 0 ≤ N) (hcs : 1 ≤ cs)
    (hov : (numChunks N cs : Int) * cs ≤ maxInt) (fuel : Nat) (hf : numChunks N cs < fuel) :
    ∃ L : List IndexChunk, chunkSlice fuel N cs = (L, true) ∧
      ∀ c ∈ L, 0 ≤ c.From ∧ c.From < c.To ∧ c.To ≤ N := by
  refine ⟨_, chunkSlice_eq_ideal N cs hN hcs hov fuel hf, ?_⟩
  intro c hc
  obtain ⟨k, hk⟩ := List.getElem?_of_mem hc
  rw [ideal_getElem?_closed N cs hN hcs k] at hk
  split at hk
  · rename_i h1
    cases hk
    have hk0 : 0 ≤ (k : Int) * cs := mul_nonneg (Int.ofNat_nonneg k) (by omega)
    have e : ((k : Int) + 1) * cs = (k : Int) * cs + cs := by ring
    simp only [e, lt_min_iff, min_le_iff]
    refine ⟨hk0, ⟨by omega, h1⟩, Or.inr (le_refl N)⟩
  · cases hk

/-- Witness of C15 at `N = 250`, `chunkSize = 100`. -/
theorem chunkSlice_bounds_witness :
    (0 : Int) ≤ 250 ∧ (1 : Int) ≤ 100 ∧ (numChunks 250 100 : Int) * 100 ≤ maxInt ∧
    numChunks 250 100 < 4 ∧
    ∃ L : List IndexChunk, chunkSlice 4 250 100 = (L, true) ∧
      ∀ c ∈ L, 0 ≤ c.From ∧ c.From < c.To ∧ c.To ≤ 250 :=
  ⟨by decide, by decide, by decide, by decide,
    chunkSlice_bounds 250 100 (by decide) (by decide) (by decide) 4 (by decide)⟩

/-- C15 fails as stated: for `N = 2^63 - 1` and `chunkSize = 2^62` the second
chunk that the loop sends is `{From: 2^62, To: -2^63}`, for which
`0 ≤ From < To ≤ N` is false. -/
theorem chunkSlice_bounds_wraps :
    (0 : Int) ≤ 2 ^ 63 - 1 ∧ (1 : Int) ≤ 2 ^ 62 ∧ (2 ^ 63 - 1 : Int) ≤ maxInt ∧
    (2 ^ 62 : Int) ≤ maxInt ∧
    chunkSlice 2 (2 ^ 63 - 1) (2 ^ 62) = ([⟨0, 2 ^ 62⟩, ⟨2 ^ 62, -(2 ^ 63)⟩], false) ∧
    (⟨2 ^ 62, -(2 ^ 63)⟩ : IndexChunk) ∈ (chunkSlice 2 (2 ^ 63 - 1) (2 ^ 62)).1 ∧
    ¬ ((0 : Int) ≤ (⟨2 ^ 62, -(2 ^ 63)⟩ : IndexChunk).From ∧
      (⟨2 ^ 62, -(2 ^ 63)⟩ : IndexChunk).From < (⟨2 ^ 62, -(2 ^ 63)⟩ : IndexChunk).To ∧
      (⟨2 ^ 62, -(2 ^ 63)⟩ : IndexChunk).To ≤ 2 ^ 63 - 1) := by
  refine ⟨by decide, by decide, by decide, by decide, by decide, by decide, by decide⟩

/-- C17: for `chunkSize = 0` and every length `N > 0` the producer loop never
terminates.  Whatever the number `fuel` of evaluations of the loop condition
that are allowed, the loop is still running after them (`close(ch)` is not
reached), the chunks sent so far are `fuel` copies of the empty range
`{From: 0, To: 0}`, and no integer lies in the range of any of them. -/
theorem chunkSlice_zero_size (N : Int) (hN : 0 < N) (fuel : Nat) :
    chunkSlice fuel N 0 = (List.replicate fuel ⟨0, 0⟩, false) ∧
    (∀ (k : Nat), k < fuel → (chunkSlice fuel N 0).1[k]? = some ⟨0, 0⟩) ∧
    (∀ c ∈ (chunkSlice fuel N 0).1, ∀ i : Int, ¬ (c.From ≤ i ∧ i < c.To)) := by
  have h : chunkSlice fuel N 0 = (List.replicate fuel ⟨0, 0⟩, false) :=
    producer_zero_size N hN fuel
  refine ⟨h, ?_, ?_⟩
  · intro k hk
    rw [h]
    exact List.getElem?_replicate_of_lt hk
  · intro c hc i
    rw [h] at hc
    have hc2 := (List.mem_replicate.mp hc).2
    subst hc2
    simp only
    omega

/-- Witness of C17 at `N = 250` after five evaluations of the loop condition. -/
theorem chunkSlice_zero_size_witness :
    (0 : Int) < 250 ∧
    (chunkSlice 5 250 0 = (List.replicate 5 ⟨0, 0⟩, false) ∧
    (∀ (k : Nat), k < 5 → (chunkSlice 5 250 0).1[k]? = some ⟨0, 0⟩) ∧
    (∀ c ∈ (chunkSlice 5 250 0).1, ∀ i : Int, ¬ (c.From ≤ i ∧ i < c.To))) :=
  ⟨by decide, chunkSlice_zero_size 250 (by decide) 5⟩

/-- C18: with 64-bit wrapping addition, for every `N ≥ 0` and `chunkSize ≥ 1`
with `N + chunkSize ≤ 2^63 - 1`, after any number of iterations the chunks
sent and the state of the loop are those computed with unbounded integers, and
at every iteration the sum `i + chunkSize` (used for `idx.To` and for
`i += chunkSize`) lies in the range of `int`, so that the wrapping addition is
the exact one.  Without the bound this fails: `N = 2^63 - 1` and
`chunkSize = 2^62` are `≥ 0` and `≥ 1`, the sum `2^62 + 2^62` wraps to `-2^63`,
and the chunk `{From: 2^62, To: -2^63}`, with `To < From`, is sent. -/
theorem chunkSlice_overflow :
    (∀ (N cs : Int), 0 ≤ N → 1 ≤ cs → N + cs ≤ 2 ^ 63 - 1 →
      ∀ fuel : Nat,
        chunkSlice fuel N cs = chunkSliceZ fuel N cs ∧
        ∀ c ∈ (chunkSlice fuel N cs).1,
          addInt c.From cs = c.From + cs ∧ minInt ≤ c.From + cs ∧ c.From + cs ≤ maxInt) ∧
    ((0 : Int) ≤ 2 ^ 63 - 1 ∧ (1 : Int) ≤ 2 ^ 62 ∧ (2 ^ 63 - 1 : Int) ≤ maxInt ∧
      (2 ^ 62 : Int) ≤ maxInt ∧ ¬ ((2 ^ 63 - 1 : Int) + 2 ^ 62 ≤ 2 ^ 63 - 1) ∧
      addInt (2 ^ 62) (2 ^ 62) = -(2 ^ 63) ∧
      addInt (2 ^ 62) (2 ^ 62) ≠ 2 ^ 62 + 2 ^ 62 ∧
      ∃ c ∈ (chunkSlice 2 (2 ^ 63 - 1) (2 ^ 62)).1,
        c = ⟨2 ^ 62, -(2 ^ 63)⟩ ∧ c.To < c.From) := by
  constructor
  · intro N cs _ hcs hb fuel
    exact producer_eq_producerZ N cs hcs hb fuel 0 (le_refl 0)
  · refine ⟨by decide, by decide, by decide, by decide, by decide, by decide, by decide,
      ⟨2 ^ 62, -(2 ^ 63)⟩, by decide, rfl, by decide⟩

/-! ## The legacy-schema message and the lock flag -/

/-- C12: for a dialect for which `newDB` constructs the driver `d`, if
`OpenDB` returns without error and `IsGoCPEDictModelV1` returns `(true, nil)`,
then `NewDB` aborts with the error made by `xerrors.New` whose text, whatever
the texts of the driver errors, is exactly `Failed to NewDB. Since
SchemaVersion is incompatible, delete Database and fetch again.`; the driver
returned is nil and neither `MigrateDB` nor `CloseDB` has been invoked. -/
theorem NewDB_v1_message {σ : Type} (b : Backend σ) (dbType dbPath : String)
    (debugSQL : Bool) (option : OpenOption) (s s1 s2 : σ) (d : Driver) (lk : Bool)
    (hd : (newDB dbType).1 = some d)
    (ho : b.OpenDB d dbType dbPath debugSQL option s = ((lk, none), s1))
    (hv : b.IsGoCPEDictModelV1 d s1 = ((true, none), s2)) :
    ∃ r, NewDB b dbType dbPath debugSQL option ⟨s, []⟩ = some r ∧
      (∃ e, r.err = some e ∧ ∀ driverText : Nat → String, Err.Error driverText e =
        "Failed to NewDB. Since SchemaVersion is incompatible, delete Database and fetch again.") ∧
      r.driver = none ∧ r.world.calls = [Call.OpenDB, Call.IsGoCPEDictModelV1] := by
  have h := newDB_eq_of_fst dbType d hd
  exact ⟨_, NewDB_path_v1 b dbType dbPath debugSQL option ⟨s, []⟩ d lk s1 s2 h ho hv,
    ⟨_, rfl, fun _ => rfl⟩, rfl, rfl⟩

/-- Witness of C12: dialect `redis`, a store that opens and reports the legacy
schema. -/
theorem NewDB_v1_message_witness :
    (newDB "redis").1 = some (Driver.RedisDriver "redis") ∧
    (scripted (false, none) (true, none) none).OpenDB (Driver.RedisDriver "redis")
      "redis" "redis://localhost/0" false ⟨0⟩ () = ((false, none), ()) ∧
    (scripted (false, none) (true, none) none).IsGoCPEDictModelV1
      (Driver.RedisDriver "redis") () = ((true, none), ()) ∧
    ∃ r, NewDB (scripted (false, none) (true, none) none) "redis" "redis://localhost/0"
        false ⟨0⟩ ⟨(), []⟩ = some r ∧
      (∃ e, r.err = some e ∧ ∀ driverText : Nat → String, Err.Error driverText e =
        "Failed to NewDB. Since SchemaVersion is incompatible, delete Database and fetch again.") ∧
      r.driver = none ∧ r.world.calls = [Call.OpenDB, Call.IsGoCPEDictModelV1] :=
  ⟨rfl, rfl, rfl,
    NewDB_v1_message (scripted (false, none) (true, none) none) "redis"
      "redis://localhost/0" false ⟨0⟩ () () () (Driver.RedisDriver "redis") false rfl rfl rfl⟩

/-- C16: `NewDB` returns, and it returns `locked = true` if and only if the
dialect is supported and `OpenDB` returned `locked = true` together with a
non-nil error.  A failure of `OpenDB` with `locked = false` yields the nil
driver, `locked = false` and that same error.  A result `(true, nil)` of
`OpenDB` is a successful open: `NewDB` goes on to invoke
`IsGoCPEDictModelV1`, invokes `MigrateDB` exactly when that check returns
`(false, nil)`, and reports `locked = false`. -/
theorem NewDB_locked_iff {σ : Type} (b : Backend σ) (dbType dbPath : String)
    (debugSQL : Bool) (option : OpenOption) (s : σ) :
    ∃ r, NewDB b dbType dbPath debugSQL option ⟨s, []⟩ = some r ∧
      (r.locked = true ↔
        ∃ (d : Driver) (e : Err) (s1 : σ), (newDB dbType).1 = some d ∧
          b.OpenDB d dbType dbPath debugSQL option s = ((true, some e), s1)) ∧
      (∀ (d : Driver) (e : Err) (s1 : σ), (newDB dbType).1 = some d →
        b.OpenDB d dbType dbPath debugSQL option s = ((false, some e), s1) →
        r.driver = none ∧ r.locked = false ∧ r.err = some e) ∧
      (∀ (d : Driver) (s1 : σ), (newDB dbType).1 = some d →
        b.OpenDB d dbType dbPath debugSQL option s = ((true, none), s1) →
        r.locked = false ∧ Call.IsGoCPEDictModelV1 ∈ r.world.calls ∧
        (Call.MigrateDB ∈ r.world.calls ↔
          ∃ s2 : σ, b.IsGoCPEDictModelV1 d s1 = ((false, none), s2))) := by
  rcases newDB_cases dbType with ⟨_, d, h, _⟩ | ⟨_, h⟩
  · have hd : (newDB dbType).1 = some d := by rw [h]
    rcases ho : b.OpenDB d dbType dbPath debugSQL option s with ⟨⟨lk, _ | e⟩, s1⟩
    · rcases hv : b.IsGoCPEDictModelV1 d s1 with ⟨⟨v, _ | e⟩, s2⟩
      · cases v
        · rcases hm : b.MigrateDB d s2 with ⟨_ | e, s3⟩
          · refine ⟨_, NewDB_path_ready b dbType dbPath debugSQL option ⟨s, []⟩ d lk s1 s2 s3
              h ho hv hm, ?_, ?_, ?_⟩
            · constructor
              · intro hr; cases hr
              · rintro ⟨d', e', s1', hd', ho'⟩
                rw [hd] at hd'; cases hd'; rw [ho] at ho'; cases ho'
            · intro d' e' s1' hd' ho'
              rw [hd] at hd'; cases hd'; rw [ho] at ho'; cases ho'
            · intro d' s1' hd' ho'
              rw [hd] at hd'; cases hd'; rw [ho] at ho'; cases ho'
              exact ⟨rfl, by simp, ⟨fun _ => ⟨s2, hv⟩, fun _ => by simp⟩⟩
          · refine ⟨_, NewDB_path_migrate b dbType dbPath debugSQL option ⟨s, []⟩ d lk e s1 s2
              s3 h ho hv hm, ?_, ?_, ?_⟩
            · constructor
              · intro hr; cases hr
              · rintro ⟨d', e', s1', hd', ho'⟩
                rw [hd] at hd'; cases hd'; rw [ho] at ho'; cases ho'
            · intro d' e' s1' hd' ho'
              rw [hd] at hd'; cases hd'; rw [ho] at ho'; cases ho'
            · intro d' s1' hd' ho'
              rw [hd] at hd'; cases hd'; rw [ho] at ho'; cases ho'
              exact ⟨rfl, by simp, ⟨fun _ => ⟨s2, hv⟩, fun _ => by simp⟩⟩
        · refine ⟨_, NewDB_path_v1 b dbType dbPath debugSQL option ⟨s, []⟩ d lk s1 s2
            h ho hv, ?_, ?_, ?_⟩
          · constructor
            · intro hr; cases hr
            · rintro ⟨d', e', s1', hd', ho'⟩
              rw [hd] at hd'; cases hd'; rw [ho] at ho'; cases ho'
          · intro d' e' s1' hd' ho'
            rw [hd] at hd'; cases hd'; rw [ho] at ho'; cases ho'
          · intro d' s1' hd' ho'
            rw [hd] at hd'; cases hd'; rw [ho] at ho'; cases ho'
            refine ⟨rfl, by simp, ⟨fun hc => by simp at hc, ?_⟩⟩
            rintro ⟨s2', hv'⟩
            rw [hv] at hv'; cases hv'
      · refine ⟨_, NewDB_path_check b dbType dbPath debugSQL option ⟨s, []⟩ d lk v e s1 s2
          h ho hv, ?_, ?_, ?_⟩
        · constructor
          · intro hr; cases hr
          · rintro ⟨d', e', s1', hd', ho'⟩
            rw [hd] at hd'; cases hd'; rw [ho] at ho'; cases ho'
        · intro d' e' s1' hd' ho'
          rw [hd] at hd'; cases hd'; rw [ho] at ho'; cases ho'
        · intro d' s1' hd' ho'
          rw [hd] at hd'; cases hd'; rw [ho] at ho'; cases ho'
          refine ⟨rfl, by simp, ⟨fun hc => by simp at hc, ?_⟩⟩
          rintro ⟨s2', hv'⟩
          rw [hv] at hv'; cases hv'
    · refine ⟨_, NewDB_path_open b dbType dbPath debugSQL option ⟨s, []⟩ d lk e s1 h ho,
        ?_, ?_, ?_⟩
      · constructor
        · intro hr
          have hlk : lk = true := hr
          subst hlk
          exact ⟨d, e, s1, hd, ho⟩
        · rintro ⟨d', e', s1', hd', ho'⟩
          rw [hd] at hd'; cases hd'; rw [ho] at ho'; cases ho'
          rfl
      · intro d' e' s1' hd' ho'
        rw [hd] at hd'; cases hd'; rw [ho] at ho'; cases ho'
        exact ⟨rfl, rfl, rfl⟩
      · intro d' s1' hd' ho'
        rw [hd] at hd'; cases hd'; rw [ho] at ho'; cases ho'
  · have hd : (newDB dbType).1 = none := by rw [h]
    refine ⟨_, NewDB_path_dialect b dbType dbPath debugSQL option ⟨s, []⟩ _ h, ?_, ?_, ?_⟩
    · constructor
      · intro hr; cases hr
      · rintro ⟨d', e', s1', hd', _⟩
        rw [hd] at hd'; cases hd'
    · intro d' e' s1' hd' _
      rw [hd] at hd'; cases hd'
    · intro d' s1' hd' _
      rw [hd] at hd'; cases hd'

end db

/-! ## Claims on the flags of the `fetch` command -/

namespace commands

/-- C13: `init` registers on the `fetch` command, which has no flag before,
the flag `batch-size` as an int with default 100, `wait` as an int with default
0, `stdout` as a bool with default `false` and `threads` as an int whose
default is the number of processors `runtime.NumCPU()`; these are all its flags
and each is bound in viper under its own name. -/
theorem init_flag_defaults (numCPU : Int) :
    (lookup (init numCPU fetchCmd).flags "batch-size").map (fun f => f.DefValue)
      = some (FlagValue.int 100) ∧
    (lookup (init numCPU fetchCmd).flags "wait").map (fun f => f.DefValue)
      = some (FlagValue.int 0) ∧
    (lookup (init numCPU fetchCmd).flags "stdout").map (fun f => f.DefValue)
      = some (FlagValue.bool false) ∧
    (lookup (init numCPU fetchCmd).flags "threads").map (fun f => f.DefValue)
      = some (FlagValue.int numCPU) ∧
    (init numCPU fetchCmd).flags.map (fun f => f.Name)
      = ["stdout", "wait", "threads", "batch-size"] ∧
    (init numCPU fetchCmd).bound.map (fun kf => (kf.1, kf.2.Name, kf.2.DefValue))
      = [("stdout", "stdout", FlagValue.bool false), ("wait", "wait", FlagValue.int 0),
         ("threads", "threads", FlagValue.int numCPU),
         ("batch-size", "batch-size", FlagValue.int 100)] := by
  refine ⟨?_, ?_, ?_, ?_, ?_, ?_⟩ <;> rfl

end commands
